import Mathlib

/-
Shallow embedding of the r9cc parser (src/parse.rs).

Modelling conventions:
- The Rust token cursor (a mutable usize) and the global scope environment
  (a lazy-static Mutex-guarded Env) are threaded explicitly: every parsing
  function takes the token list, the cursor position and the environment and
  returns an Option of (result, new position, new environment).
- A returned none models a fatal abort: an index out of bounds on the token
  list, a bad_token diagnostic, or an explicit abort in the Rust source.
- Fuel: the Rust functions are mutually recursive with no structural measure,
  so the parser is one Lean function, run, indexed by a call descriptor and
  by a fuel that every call decrements, returning none when it runs out.
  Fuel exhaustion is the only deviation from the source control flow; all
  theorems either quantify over fuel with a success hypothesis, or use a
  concrete fuel large enough for the input.
- Rust usize becomes Nat, Rust i32 becomes Int.  The byte data of a string
  literal becomes a list of byte values, so that the Rust str.len() is the
  list length.
- HashMap String V becomes an association list with leftmost-match lookup;
  insertion conses the new binding in front, which realizes the overwriting
  semantics of HashMap insert for every later lookup.
-/

inductive TokenType where
  | Num (val : Int)
  | Str (data : List Nat) (len : Nat)
  | Ident (name : String)
  | Int
  | Char
  | Void
  | Struct
  | Typedef
  | Extern
  | If
  | Else
  | For
  | While
  | Do
  | Return
  | Sizeof
  | Alignof
  | Plus
  | Minus
  | Mul
  | Div
  | Mod
  | And
  | Hat
  | VerticalBar
  | Logand
  | Logor
  | SHL
  | SHR
  | LeftAngleBracket
  | RightAngleBracket
  | LE
  | GE
  | EQ
  | NE
  | Equal
  | Comma
  | Question
  | Colon
  | Semicolon
  | LeftParen
  | RightParen
  | LeftBrace
  | RightBrace
  | LeftBracket
  | RightBracket
  | Dot
  | Arrow
  | Exclamation
  deriving DecidableEq, Repr

/-- A token as seen by the parser: only its kind is inspected. -/
structure Token where
  ty : TokenType
  deriving DecidableEq, Repr

/-- Modelled from the spec: the Scope tag of the surrounding crate (a
variable is Local with a placeholder offset, or Global with a label, a byte
size and an extern flag); its constructors are exactly the ones parse.rs
builds. -/
inductive Scope where
  | Local (offset : Nat)
  | Global (label : String) (size : Nat) (is_ext : Bool)
  deriving DecidableEq, Repr

mutual
inductive Ctype where
  | Void
  | Char
  | Int
  | Ptr (base : Ty)
  | Ary (base : Ty) (len : Nat)
  | Struct (members : List Node)

inductive Ty where
  | mk (ty : Ctype) (size : Nat) (align : Nat)

inductive NodeType where
  | Num (val : Int)
  | Str (data : List Nat) (len : Nat)
  | Ident (name : String)
  | Vardef (name : String) (init : Option Node) (scope : Scope)
  | Lvar (scope : Scope)
  | Gvar (name : String) (data : String) (len : Nat)
  | BinOp (op : TokenType) (lhs : Node) (rhs : Node)
  | If (cond : Node) (th : Node) (els : Option Node)
  | Ternary (cond : Node) (th : Node) (els : Node)
  | For (init : Node) (cond : Node) (inc : Node) (body : Node)
  | DoWhile (body : Node) (cond : Node)
  | Addr (e : Node)
  | Deref (e : Node)
  | Dot (e : Node) (name : String) (offset : Nat)
  | Exclamation (e : Node)
  | Neg (e : Node)
  | Return (e : Node)
  | Sizeof (e : Node)
  | Alignof (e : Node)
  | Call (name : String) (args : List Node)
  | Func (name : String) (args : List Node) (body : Node) (stacksize : Nat)
  | CompStmt (stmts : List Node)
  | VecStmt (stmts : List Node)
  | ExprStmt (e : Node)
  | StmtExpr (e : Node)
  | Null

inductive Node where
  | mk (op : NodeType) (ty : Ty)
end

def Node.op : Node → NodeType
  | .mk op _ => op

def Node.ty : Node → Ty
  | .mk _ ty => ty

def Ty.ctype : Ty → Ctype
  | .mk t _ _ => t

def Ty.size : Ty → Nat
  | .mk _ s _ => s

def Ty.align : Ty → Nat
  | .mk _ _ a => a

/-- Modelled from the spec: util::roundup (util.rs is outside src/): round x
up to the nearest multiple of align; the align = 0 case leaves x unchanged
(the bit version in the source is only ever used with power-of-two aligns,
where the two agree). -/
def roundup (x align : Nat) : Nat :=
  if align = 0 then x else ((x + align - 1) / align) * align

def Ty.new (ty : Ctype) (size : Nat) : Ty := Ty.mk ty size size

def Ty.void_ty : Ty := Ty.new .Void 0

def Ty.char_ty : Ty := Ty.new .Char 1

def Ty.int_ty : Ty := Ty.new .Int 4

def Ty.ptr_to (base : Ty) : Ty := Ty.new (.Ptr base) 8

def Ty.ary_of (base : Ty) (len : Nat) : Ty :=
  Ty.mk (.Ary base len) (base.size * len) base.align

/-- Modelled from the spec: the placeholder Type::default() a fresh node
carries before a later pass fills its type in (an Int-kinded type of size
and alignment zero). -/
def Ty.default : Ty := Ty.mk .Int 0 0

/-- Worker of Type::set_offset: walks the member list with the running
offset and the running max alignment, writing each member byte offset;
a member that is not a local Vardef aborts (source: panic). -/
def set_offset_go (off align : Nat) : List Node → Option (List Node × Nat × Nat)
  | [] => some ([], off, align)
  | node :: rest =>
    match node with
    | .mk (.Vardef name init (.Local _)) ty =>
      let off1 := roundup off ty.align
      let off2 := off1 + ty.size
      let align1 := if align < ty.align then ty.align else align
      match set_offset_go off2 align1 rest with
      | none => none
      | some (rest1, off3, align3) =>
        some (Node.mk (.Vardef name init (.Local off1)) ty :: rest1, off3, align3)
    | _ => none

def set_offset (members : List Node) : Option (List Node × Nat × Nat) :=
  set_offset_go 0 0 members

def Ty.new_struct (members : List Node) : Option Ty :=
  match set_offset members with
  | none => none
  | some (members1, off, align) =>
    some (Ty.mk (.Struct members1) (roundup off align) align)

def Node.new (op : NodeType) : Node := Node.mk op Ty.default

def Node.int_node (val : Int) : Node := Node.new (.Num val)

def Node.new_binop (ty : TokenType) (lhs rhs : Node) : Node :=
  Node.new (.BinOp ty lhs rhs)

/-- One frame of the scope chain: struct tags, typedefs and the parent. -/
inductive Env where
  | mk (tags : List (String × List Node)) (typedefs : List (String × Ty))
       (next : Option Env)

def Env.tags : Env → List (String × List Node)
  | .mk tags _ _ => tags

def Env.typedefs : Env → List (String × Ty)
  | .mk _ tds _ => tds

def Env.next : Env → Option Env
  | .mk _ _ next => next

def Env.new (next : Option Env) : Env := Env.mk [] [] next

/-- Leftmost-match association list lookup (HashMap::get). -/
def alist_get {α : Type} (key : String) : List (String × α) → Option α
  | [] => none
  | (k, v) :: rest => if k = key then some v else alist_get key rest

/-- HashMap::insert on the model: the new binding shadows any older one. -/
def alist_insert {α : Type} (key : String) (v : α) (l : List (String × α)) :
    List (String × α) := (key, v) :: l

def Env.insert_tag (env : Env) (key : String) (v : List Node) : Env :=
  Env.mk (alist_insert key v env.tags) env.typedefs env.next

def Env.insert_typedef (env : Env) (key : String) (v : Ty) : Env :=
  Env.mk env.tags (alist_insert key v env.typedefs) env.next

/-- fn expect: aborts (none) unless the token at pos has the given kind;
returns the advanced cursor. -/
def expect (ty : TokenType) (toks : List Token) (pos : Nat) : Option Nat :=
  match toks[pos]? with
  | none => none
  | some t => if t.ty = ty then some (pos + 1) else none

/-- fn consume: tests the token at pos, advancing the cursor on a match;
indexing past the end aborts, as in the source. -/
def consume (ty : TokenType) (toks : List Token) (pos : Nat) :
    Option (Bool × Nat) :=
  match toks[pos]? with
  | none => none
  | some t => if t.ty = ty then some (true, pos + 1) else some (false, pos)

/-- fn is_typename: an identifier is a typename iff the innermost frame of
the current environment binds it as a typedef; otherwise only the keywords
int, char, void and struct are typenames. -/
def is_typename (t : Token) (env : Env) : Bool :=
  match t.ty with
  | .Ident name => (alist_get name env.typedefs).isSome
  | ty => ty = .Int || ty = .Char || ty = .Void || ty = .Struct

/-- fn ident: reads an identifier token, aborting on anything else. -/
def ident (toks : List Token) (pos : Nat) : Option (String × Nat) :=
  match toks[pos]? with
  | none => none
  | some t =>
    match t.ty with
    | .Ident name => some (name, pos + 1)
    | _ => none

/-- Rust i32-to-usize cast (n as usize) used for array lengths. -/
def int_to_usize (n : Int) : Nat := (n.emod (2 ^ 64)).toNat

/-- Tail of the Struct branch of fn read_type, after the optional tag and
the optional brace-delimited member list have been read: resolve or
register the tag, then build the struct type.  Aborts (none) on the two
source aborts (incomplete type; bad struct definition) and when new_struct
rejects a member. -/
def read_type_struct_tail (tag_may : Option String) (members : List Node)
    (pos : Nat) (env : Env) : Option (Option Ty × Nat × Env) :=
  match tag_may with
  | some tag =>
    if members.isEmpty then
      match alist_get tag env.tags with
      | some members2 =>
        if members2.isEmpty then none
        else
          match Ty.new_struct members2 with
          | none => none
          | some ty => some (some ty, pos, env)
      | none =>
        match Ty.new_struct members with
        | none => none
        | some ty => some (some ty, pos, env)
    else
      match Ty.new_struct members with
      | none => none
      | some ty => some (some ty, pos, env.insert_tag tag members)
  | none =>
    if members.isEmpty then none
    else
      match Ty.new_struct members with
      | none => none
      | some ty => some (some ty, pos, env)


/-- Call descriptor for the defunctionalized parser: one constructor per
function of parse.rs (loop constructors carry the loop state that the Rust
code keeps in mutable locals).  The whole parser is one Lean function, run,
recursive only in its fuel argument, because the Rust functions are all
mutually recursive; the named wrappers below restore the source signatures. -/
inductive PFn where
  | read_type (t : Token)
  | read_type_struct (tag_may : Option String)
  | struct_members_loop (acc : List Node)
  | primary
  | call_args_loop (acc : List Node)
  | postfix_expr
  | postfix_loop (lhs : Node)
  | unary
  | mul
  | mul_loop (lhs : Node)
  | add
  | add_loop (lhs : Node)
  | shift
  | shift_loop (lhs : Node)
  | relational
  | relational_loop (lhs : Node)
  | equality
  | equality_loop (lhs : Node)
  | bit_and
  | bit_and_loop (lhs : Node)
  | bit_xor
  | bit_xor_loop (lhs : Node)
  | bit_or
  | bit_or_loop (lhs : Node)
  | logand
  | logand_loop (lhs : Node)
  | logor
  | logor_loop (lhs : Node)
  | conditional
  | assign
  | expr
  | ctype
  | ptr_loop (ty : Ty)
  | read_array (ty : Ty)
  | read_array_loop (v : List Nat)
  | decl
  | array_init_rval (id_node : Node)
  | array_init_loop (id_node : Node) (i : Int) (acc : List Node)
  | param
  | expr_stmt
  | stmt
  | stmt_list_loop (acc : List Node)
  | compound_stmt
  | params_loop (acc : List Node)
  | toplevel
  | toplevel_loop (acc : List Node)

/-- Result of one defunctionalized call: the value variants the source
functions return (an AST node, a node list, a type, an optional type from
read_type, or the collected array lengths of read_array). -/
inductive PRes where
  | node (n : Node)
  | nodes (l : List Node)
  | ty (t : Ty)
  | opt_ty (t : Option Ty)
  | lens (v : List Nat)

/-- The r9cc parser, defunctionalized: run fuel fn toks pos env executes the
body of the parse.rs function named by fn on the token list from cursor pos
in environment env.  Every case is a direct translation of the Rust body it
is commented with; a recursive call becomes run at one fuel less, and a
result of the wrong variant is impossible but mapped to the abort value
none by the catch-all arms. -/
def run : Nat → PFn → List Token → Nat → Env → Option (PRes × Nat × Env)
  | 0, _, _, _, _ => none
  | fuel+1, fn, toks, pos, env =>
    match fn with
    -- fn read_type: the cursor is incremented at entry and restored by the
    -- branches that return None, so those return the entry position.
    | .read_type t =>
      match t.ty with
      | .Ident name =>
        match alist_get name env.typedefs with
        | some ty => some (.opt_ty (some ty), pos + 1, env)
        | none => some (.opt_ty none, pos, env)
      | .Int => some (.opt_ty (some Ty.int_ty), pos + 1, env)
      | .Char => some (.opt_ty (some Ty.char_ty), pos + 1, env)
      | .Void => some (.opt_ty (some Ty.void_ty), pos + 1, env)
      | .Struct =>
        match toks[pos + 1]? with
        | none => none
        | some t2 =>
          match t2.ty with
          | .Ident name => run fuel (.read_type_struct (some name)) toks (pos + 1 + 1) env
          | _ => run fuel (.read_type_struct none) toks (pos + 1) env
      | _ => some (.opt_ty none, pos, env)
    -- rest of the Struct branch of fn read_type, after the optional tag has
    -- been read: the optional member list, then the tag logic of
    -- read_type_struct_tail
    | .read_type_struct tag_may =>
      match consume .LeftBrace toks pos with
      | none => none
      | some (false, pos2) =>
        match read_type_struct_tail tag_may [] pos2 env with
        | none => none
        | some (ty, pos3, env1) => some (.opt_ty ty, pos3, env1)
      | some (true, pos2) =>
        match run fuel (.struct_members_loop []) toks pos2 env with
        | some (.nodes members, pos3, env1) =>
          match read_type_struct_tail tag_may members pos3 env1 with
          | none => none
          | some (ty, pos4, env2) => some (.opt_ty ty, pos4, env2)
        | _ => none
    -- member loop of the Struct branch of fn read_type
    | .struct_members_loop acc =>
      match consume .RightBrace toks pos with
      | none => none
      | some (true, pos1) => some (.nodes acc, pos1, env)
      | some (false, pos1) =>
        match run fuel .decl toks pos1 env with
        | some (.node n, pos2, env1) =>
          run fuel (.struct_members_loop (acc ++ [n])) toks pos2 env1
        | _ => none
    -- fn primary
    | .primary =>
      match toks[pos]? with
      | none => none
      | some t =>
        match t.ty with
        | .Num val => some (.node (Node.mk (.Num val) Ty.int_ty), pos + 1, env)
        | .Str s len =>
          some (.node (Node.mk (.Str s len) (Ty.ary_of Ty.char_ty s.length)),
            pos + 1, env)
        | .Ident name =>
          match consume .LeftParen toks (pos + 1) with
          | none => none
          | some (false, pos1) => some (.node (Node.new (.Ident name)), pos1, env)
          | some (true, pos1) =>
            match consume .RightParen toks pos1 with
            | none => none
            | some (true, pos2) => some (.node (Node.new (.Call name [])), pos2, env)
            | some (false, pos2) =>
              match run fuel .assign toks pos2 env with
              | some (.node a, pos3, env1) =>
                match run fuel (.call_args_loop [a]) toks pos3 env1 with
                | some (.nodes args, pos4, env2) =>
                  match expect .RightParen toks pos4 with
                  | none => none
                  | some pos5 => some (.node (Node.new (.Call name args)), pos5, env2)
                | _ => none
              | _ => none
        | .LeftParen =>
          match consume .LeftBrace toks (pos + 1) with
          | none => none
          | some (true, pos1) =>
            match run fuel .compound_stmt toks pos1 env with
            | some (.node st, pos2, env1) =>
              match expect .RightParen toks pos2 with
              | none => none
              | some pos3 => some (.node (Node.new (.StmtExpr st)), pos3, env1)
            | _ => none
          | some (false, pos1) =>
            match run fuel .expr toks pos1 env with
            | some (.node node, pos2, env1) =>
              match expect .RightParen toks pos2 with
              | none => none
              | some pos3 => some (.node node, pos3, env1)
            | _ => none
        | _ => none
    -- argument loop of the Call case of fn primary
    | .call_args_loop acc =>
      match consume .Comma toks pos with
      | none => none
      | some (false, pos1) => some (.nodes acc, pos1, env)
      | some (true, pos1) =>
        match run fuel .assign toks pos1 env with
        | some (.node a, pos2, env1) =>
          run fuel (.call_args_loop (acc ++ [a])) toks pos2 env1
        | _ => none
    -- fn postfix
    | .postfix_expr =>
      match run fuel .primary toks pos env with
      | some (.node lhs, pos1, env1) => run fuel (.postfix_loop lhs) toks pos1 env1
      | _ => none
    -- loop of fn postfix: dot, arrow and index suffixes
    | .postfix_loop lhs =>
      match consume .Dot toks pos with
      | none => none
      | some (true, pos1) =>
        match ident toks pos1 with
        | none => none
        | some (name, pos2) =>
          run fuel (.postfix_loop (Node.new (.Dot lhs name 0))) toks pos2 env
      | some (false, pos1) =>
        match consume .Arrow toks pos1 with
        | none => none
        | some (true, pos2) =>
          match ident toks pos2 with
          | none => none
          | some (name, pos3) =>
            run fuel (.postfix_loop (Node.new (.Dot (Node.new (.Deref lhs)) name 0)))
              toks pos3 env
        | some (false, pos2) =>
          match consume .LeftBracket toks pos2 with
          | none => none
          | some (true, pos3) =>
            match run fuel .assign toks pos3 env with
            | some (.node idx, pos4, env1) =>
              match expect .RightBracket toks pos4 with
              | none => none
              | some pos5 =>
                run fuel
                  (.postfix_loop (Node.new (.Deref (Node.new_binop .Plus lhs idx))))
                  toks pos5 env1
            | _ => none
          | some (false, pos3) => some (.node lhs, pos3, env)
    -- fn unary
    | .unary =>
      match consume .Minus toks pos with
      | none => none
      | some (true, pos1) =>
        match run fuel .unary toks pos1 env with
        | some (.node e, pos2, env1) => some (.node (Node.new (.Neg e)), pos2, env1)
        | _ => none
      | some (false, pos1) =>
        match consume .Mul toks pos1 with
        | none => none
        | some (true, pos2) =>
          match run fuel .unary toks pos2 env with
          | some (.node e, pos3, env1) => some (.node (Node.new (.Deref e)), pos3, env1)
          | _ => none
        | some (false, pos2) =>
          match consume .And toks pos2 with
          | none => none
          | some (true, pos3) =>
            match run fuel .unary toks pos3 env with
            | some (.node e, pos4, env1) => some (.node (Node.new (.Addr e)), pos4, env1)
            | _ => none
          | some (false, pos3) =>
            match consume .Exclamation toks pos3 with
            | none => none
            | some (true, pos4) =>
              match run fuel .unary toks pos4 env with
              | some (.node e, pos5, env1) =>
                some (.node (Node.new (.Exclamation e)), pos5, env1)
              | _ => none
            | some (false, pos4) =>
              match consume .Sizeof toks pos4 with
              | none => none
              | some (true, pos5) =>
                match run fuel .unary toks pos5 env with
                | some (.node e, pos6, env1) =>
                  some (.node (Node.new (.Sizeof e)), pos6, env1)
                | _ => none
              | some (false, pos5) =>
                match consume .Alignof toks pos5 with
                | none => none
                | some (true, pos6) =>
                  match run fuel .unary toks pos6 env with
                  | some (.node e, pos7, env1) =>
                    some (.node (Node.new (.Alignof e)), pos7, env1)
                  | _ => none
                | some (false, pos6) => run fuel .postfix_expr toks pos6 env
    -- fn mul
    | .mul =>
      match run fuel .unary toks pos env with
      | some (.node lhs, pos1, env1) => run fuel (.mul_loop lhs) toks pos1 env1
      | _ => none
    -- loop of fn mul
    | .mul_loop lhs =>
      match consume .Mul toks pos with
      | none => none
      | some (true, pos1) =>
        match run fuel .unary toks pos1 env with
        | some (.node rhs, pos2, env1) =>
          run fuel (.mul_loop (Node.new_binop .Mul lhs rhs)) toks pos2 env1
        | _ => none
      | some (false, pos1) =>
        match consume .Div toks pos1 with
        | none => none
        | some (true, pos2) =>
          match run fuel .unary toks pos2 env with
          | some (.node rhs, pos3, env1) =>
            run fuel (.mul_loop (Node.new_binop .Div lhs rhs)) toks pos3 env1
          | _ => none
        | some (false, pos2) =>
          match consume .Mod toks pos2 with
          | none => none
          | some (true, pos3) =>
            match run fuel .unary toks pos3 env with
            | some (.node rhs, pos4, env1) =>
              run fuel (.mul_loop (Node.new_binop .Mod lhs rhs)) toks pos4 env1
            | _ => none
          | some (false, pos3) => some (.node lhs, pos3, env)
    -- fn add
    | .add =>
      match run fuel .mul toks pos env with
      | some (.node lhs, pos1, env1) => run fuel (.add_loop lhs) toks pos1 env1
      | _ => none
    -- loop of fn add
    | .add_loop lhs =>
      match consume .Plus toks pos with
      | none => none
      | some (true, pos1) =>
        match run fuel .mul toks pos1 env with
        | some (.node rhs, pos2, env1) =>
          run fuel (.add_loop (Node.new_binop .Plus lhs rhs)) toks pos2 env1
        | _ => none
      | some (false, pos1) =>
        match consume .Minus toks pos1 with
        | none => none
        | some (true, pos2) =>
          match run fuel .mul toks pos2 env with
          | some (.node rhs, pos3, env1) =>
            run fuel (.add_loop (Node.new_binop .Minus lhs rhs)) toks pos3 env1
          | _ => none
        | some (false, pos2) => some (.node lhs, pos2, env)
    -- fn shift
    | .shift =>
      match run fuel .add toks pos env with
      | some (.node lhs, pos1, env1) => run fuel (.shift_loop lhs) toks pos1 env1
      | _ => none
    -- loop of fn shift
    | .shift_loop lhs =>
      match consume .SHL toks pos with
      | none => none
      | some (true, pos1) =>
        match run fuel .add toks pos1 env with
        | some (.node rhs, pos2, env1) =>
          run fuel (.shift_loop (Node.new_binop .SHL lhs rhs)) toks pos2 env1
        | _ => none
      | some (false, pos1) =>
        match consume .SHR toks pos1 with
        | none => none
        | some (true, pos2) =>
          match run fuel .add toks pos2 env with
          | some (.node rhs, pos3, env1) =>
            run fuel (.shift_loop (Node.new_binop .SHR lhs rhs)) toks pos3 env1
          | _ => none
        | some (false, pos2) => some (.node lhs, pos2, env)
    -- fn relational
    | .relational =>
      match run fuel .shift toks pos env with
      | some (.node lhs, pos1, env1) => run fuel (.relational_loop lhs) toks pos1 env1
      | _ => none
    -- loop of fn relational: the two greater-than cases swap the operands
    -- and record the operator as the mirrored less-than form
    | .relational_loop lhs =>
      match consume .LeftAngleBracket toks pos with
      | none => none
      | some (true, pos1) =>
        match run fuel .shift toks pos1 env with
        | some (.node rhs, pos2, env1) =>
          run fuel (.relational_loop (Node.new_binop .LeftAngleBracket lhs rhs))
            toks pos2 env1
        | _ => none
      | some (false, pos1) =>
        match consume .RightAngleBracket toks pos1 with
        | none => none
        | some (true, pos2) =>
          match run fuel .shift toks pos2 env with
          | some (.node rhs, pos3, env1) =>
            run fuel (.relational_loop (Node.new_binop .LeftAngleBracket rhs lhs))
              toks pos3 env1
          | _ => none
        | some (false, pos2) =>
          match consume .LE toks pos2 with
          | none => none
          | some (true, pos3) =>
            match run fuel .shift toks pos3 env with
            | some (.node rhs, pos4, env1) =>
              run fuel (.relational_loop (Node.new_binop .LE lhs rhs)) toks pos4 env1
            | _ => none
          | some (false, pos3) =>
            match consume .GE toks pos3 with
            | none => none
            | some (true, pos4) =>
              match run fuel .shift toks pos4 env with
              | some (.node rhs, pos5, env1) =>
                run fuel (.relational_loop (Node.new_binop .LE rhs lhs)) toks pos5 env1
              | _ => none
            | some (false, pos4) => some (.node lhs, pos4, env)
    -- fn equality
    | .equality =>
      match run fuel .relational toks pos env with
      | some (.node lhs, pos1, env1) => run fuel (.equality_loop lhs) toks pos1 env1
      | _ => none
    -- loop of fn equality
    | .equality_loop lhs =>
      match consume .EQ toks pos with
      | none => none
      | some (true, pos1) =>
        match run fuel .relational toks pos1 env with
        | some (.node rhs, pos2, env1) =>
          run fuel (.equality_loop (Node.new_binop .EQ lhs rhs)) toks pos2 env1
        | _ => none
      | some (false, pos1) =>
        match consume .NE toks pos1 with
        | none => none
        | some (true, pos2) =>
          match run fuel .relational toks pos2 env with
          | some (.node rhs, pos3, env1) =>
            run fuel (.equality_loop (Node.new_binop .NE lhs rhs)) toks pos3 env1
          | _ => none
        | some (false, pos2) => some (.node lhs, pos2, env)
    -- fn bit_and
    | .bit_and =>
      match run fuel .equality toks pos env with
      | some (.node lhs, pos1, env1) => run fuel (.bit_and_loop lhs) toks pos1 env1
      | _ => none
    -- loop of fn bit_and
    | .bit_and_loop lhs =>
      match consume .And toks pos with
      | none => none
      | some (false, pos1) => some (.node lhs, pos1, env)
      | some (true, pos1) =>
        match run fuel .equality toks pos1 env with
        | some (.node rhs, pos2, env1) =>
          run fuel (.bit_and_loop (Node.new_binop .And lhs rhs)) toks pos2 env1
        | _ => none
    -- fn bit_xor
    | .bit_xor =>
      match run fuel .bit_and toks pos env with
      | some (.node lhs, pos1, env1) => run fuel (.bit_xor_loop lhs) toks pos1 env1
      | _ => none
    -- loop of fn bit_xor
    | .bit_xor_loop lhs =>
      match consume .Hat toks pos with
      | none => none
      | some (false, pos1) => some (.node lhs, pos1, env)
      | some (true, pos1) =>
        match run fuel .bit_and toks pos1 env with
        | some (.node rhs, pos2, env1) =>
          run fuel (.bit_xor_loop (Node.new_binop .Hat lhs rhs)) toks pos2 env1
        | _ => none
    -- fn bit_or
    | .bit_or =>
      match run fuel .bit_xor toks pos env with
      | some (.node lhs, pos1, env1) => run fuel (.bit_or_loop lhs) toks pos1 env1
      | _ => none
    -- loop of fn bit_or
    | .bit_or_loop lhs =>
      match consume .VerticalBar toks pos with
      | none => none
      | some (false, pos1) => some (.node lhs, pos1, env)
      | some (true, pos1) =>
        match run fuel .bit_xor toks pos1 env with
        | some (.node rhs, pos2, env1) =>
          run fuel (.bit_or_loop (Node.new_binop .VerticalBar lhs rhs)) toks pos2 env1
        | _ => none
    -- fn logand
    | .logand =>
      match run fuel .bit_or toks pos env with
      | some (.node lhs, pos1, env1) => run fuel (.logand_loop lhs) toks pos1 env1
      | _ => none
    -- loop of fn logand: the right-hand side of each fold is a recursive
    -- call to logand itself, exactly as in the source
    | .logand_loop lhs =>
      match consume .Logand toks pos with
      | none => none
      | some (false, pos1) => some (.node lhs, pos1, env)
      | some (true, pos1) =>
        match run fuel .logand toks pos1 env with
        | some (.node rhs, pos2, env1) =>
          run fuel (.logand_loop (Node.new_binop .Logand lhs rhs)) toks pos2 env1
        | _ => none
    -- fn logor
    | .logor =>
      match run fuel .logand toks pos env with
      | some (.node lhs, pos1, env1) => run fuel (.logor_loop lhs) toks pos1 env1
      | _ => none
    -- loop of fn logor: the right-hand side of each fold is a logand call
    -- (one level down), as in the source
    | .logor_loop lhs =>
      match consume .Logor toks pos with
      | none => none
      | some (false, pos1) => some (.node lhs, pos1, env)
      | some (true, pos1) =>
        match run fuel .logand toks pos1 env with
        | some (.node rhs, pos2, env1) =>
          run fuel (.logor_loop (Node.new_binop .Logor lhs rhs)) toks pos2 env1
        | _ => none
    -- fn conditional
    | .conditional =>
      match run fuel .logor toks pos env with
      | some (.node cond, pos1, env1) =>
        match consume .Question toks pos1 with
        | none => none
        | some (false, pos2) => some (.node cond, pos2, env1)
        | some (true, pos2) =>
          match run fuel .expr toks pos2 env1 with
          | some (.node th, pos3, env2) =>
            match expect .Colon toks pos3 with
            | none => none
            | some pos4 =>
              match run fuel .conditional toks pos4 env2 with
              | some (.node els, pos5, env3) =>
                some (.node (Node.new (.Ternary cond th els)), pos5, env3)
              | _ => none
          | _ => none
      | _ => none
    -- fn assign: the right-hand side of the single fold is a conditional
    -- call, exactly as in the source
    | .assign =>
      match run fuel .conditional toks pos env with
      | some (.node lhs, pos1, env1) =>
        match consume .Equal toks pos1 with
        | none => none
        | some (false, pos2) => some (.node lhs, pos2, env1)
        | some (true, pos2) =>
          match run fuel .conditional toks pos2 env1 with
          | some (.node rhs, pos3, env2) =>
            some (.node (Node.new_binop .Equal lhs rhs), pos3, env2)
          | _ => none
      | _ => none
    -- fn expr (comma level)
    | .expr =>
      match run fuel .assign toks pos env with
      | some (.node lhs, pos1, env1) =>
        match consume .Comma toks pos1 with
        | none => none
        | some (false, pos2) => some (.node lhs, pos2, env1)
        | some (true, pos2) =>
          match run fuel .expr toks pos2 env1 with
          | some (.node rhs, pos3, env2) =>
            some (.node (Node.new_binop .Comma lhs rhs), pos3, env2)
          | _ => none
      | _ => none
    -- fn ctype: a base type from read_type followed by pointer stars; a
    -- read_type miss is fatal here (bad_token: typename expected)
    | .ctype =>
      match toks[pos]? with
      | none => none
      | some t =>
        match run fuel (.read_type t) toks pos env with
        | some (.opt_ty (some ty), pos1, env1) =>
          run fuel (.ptr_loop ty) toks pos1 env1
        | _ => none
    -- star loop of fn ctype
    | .ptr_loop ty =>
      match consume .Mul toks pos with
      | none => none
      | some (false, pos1) => some (.ty ty, pos1, env)
      | some (true, pos1) => run fuel (.ptr_loop (Ty.ptr_to ty)) toks pos1 env
    -- bracket loop of fn read_array: collects the constant lengths; a
    -- length expression that is not a number literal is fatal
    | .read_array_loop v =>
      match consume .LeftBracket toks pos with
      | none => none
      | some (false, pos1) => some (.lens v, pos1, env)
      | some (true, pos1) =>
        match run fuel .expr toks pos1 env with
        | some (.node len, pos2, env1) =>
          match len.op with
          | .Num n =>
            match expect .RightBracket toks pos2 with
            | none => none
            | some pos3 =>
              run fuel (.read_array_loop (v ++ [int_to_usize n])) toks pos3 env1
          | _ => none
        | _ => none
    -- fn read_array
    | .read_array ty =>
      match run fuel (.read_array_loop []) toks pos env with
      | some (.lens v, pos1, env1) =>
        some (.ty (v.foldl (fun t len => Ty.ary_of t len) ty), pos1, env1)
      | _ => none
    -- fn decl
    | .decl =>
      match run fuel .ctype toks pos env with
      | some (.ty ty, pos1, env1) =>
        match ident toks pos1 with
        | none => none
        | some (name, pos2) =>
          match run fuel (.read_array ty) toks pos2 env1 with
          | some (.ty ty1, pos3, env2) =>
            match ty1.ctype with
            | .Void => none
            | _ =>
              match consume .Equal toks pos3 with
              | none => none
              | some (true, pos4) =>
                match consume .LeftBrace toks pos4 with
                | none => none
                | some (true, pos5) =>
                  match run fuel (.array_init_rval (Node.new (.Ident name)))
                      toks pos5 env2 with
                  | some (.node init_ary, pos6, env3) =>
                    match expect .Semicolon toks pos6 with
                    | none => none
                    | some pos7 =>
                      some (.node (Node.new (.VecStmt
                        [Node.mk (.Vardef name none (.Local 0)) ty1, init_ary])),
                        pos7, env3)
                  | _ => none
                | some (false, pos5) =>
                  match run fuel .assign toks pos5 env2 with
                  | some (.node ini, pos6, env3) =>
                    match expect .Semicolon toks pos6 with
                    | none => none
                    | some pos7 =>
                      some (.node (Node.mk (.Vardef name (some ini) (.Local 0)) ty1),
                        pos7, env3)
                  | _ => none
              | some (false, pos4) =>
                match expect .Semicolon toks pos4 with
                | none => none
                | some pos5 =>
                  some (.node (Node.mk (.Vardef name none (.Local 0)) ty1), pos5, env2)
          | _ => none
      | _ => none
    -- fn array_init_rval
    | .array_init_rval id_node =>
      run fuel (.array_init_loop id_node 0 []) toks pos env
    -- loop of fn array_init_rval: one primary per initializer value, each
    -- wrapped as an expression statement assigning through the dereferenced
    -- index; the index starts at 0 and increases by 1 per comma
    | .array_init_loop id_node i acc =>
      match run fuel .primary toks pos env with
      | some (.node val, pos1, env1) =>
        match consume .Comma toks pos1 with
        | none => none
        | some (false, pos2) =>
          match expect .RightBrace toks pos2 with
          | none => none
          | some pos3 =>
            some (.node (Node.new (.VecStmt (acc ++
              [Node.new (.ExprStmt (Node.new_binop .Equal
                (Node.new (.Deref (Node.new_binop .Plus id_node (Node.new (.Num i)))))
                val))]))), pos3, env1)
        | some (true, pos2) =>
          run fuel (.array_init_loop id_node (i + 1) (acc ++
            [Node.new (.ExprStmt (Node.new_binop .Equal
              (Node.new (.Deref (Node.new_binop .Plus id_node (Node.new (.Num i)))))
              val))])) toks pos2 env1
      | _ => none
    -- fn param
    | .param =>
      match run fuel .ctype toks pos env with
      | some (.ty ty, pos1, env1) =>
        match ident toks pos1 with
        | none => none
        | some (name, pos2) =>
          some (.node (Node.mk (.Vardef name none (.Local 0)) ty), pos2, env1)
      | _ => none
    -- fn expr_stmt
    | .expr_stmt =>
      match run fuel .expr toks pos env with
      | some (.node e, pos1, env1) =>
        match expect .Semicolon toks pos1 with
        | none => none
        | some pos2 => some (.node (Node.new (.ExprStmt e)), pos2, env1)
      | _ => none
    -- fn stmt
    | .stmt =>
      match toks[pos]? with
      | none => none
      | some t =>
        match t.ty with
        | .Typedef =>
          match run fuel .decl toks (pos + 1) env with
          | some (.node node, pos1, env1) =>
            match node.op with
            | .Vardef name _ _ =>
              some (.node (Node.new .Null), pos1, env1.insert_typedef name node.ty)
            | _ => none
          | _ => none
        | .Int => run fuel .decl toks pos env
        | .Char => run fuel .decl toks pos env
        | .Struct => run fuel .decl toks pos env
        | .If =>
          match expect .LeftParen toks (pos + 1) with
          | none => none
          | some pos1 =>
            match run fuel .expr toks pos1 env with
            | some (.node cond, pos2, env1) =>
              match expect .RightParen toks pos2 with
              | none => none
              | some pos3 =>
                match run fuel .stmt toks pos3 env1 with
                | some (.node th, pos4, env2) =>
                  match consume .Else toks pos4 with
                  | none => none
                  | some (true, pos5) =>
                    match run fuel .stmt toks pos5 env2 with
                    | some (.node els, pos6, env3) =>
                      some (.node (Node.new (.If cond th (some els))), pos6, env3)
                    | _ => none
                  | some (false, pos5) =>
                    some (.node (Node.new (.If cond th none)), pos5, env2)
                | _ => none
            | _ => none
        | .For =>
          match expect .LeftParen toks (pos + 1) with
          | none => none
          | some pos1 =>
            match toks[pos1]? with
            | none => none
            | some t1 =>
              match (if is_typename t1 env then run fuel .decl toks pos1 env
                     else run fuel .expr_stmt toks pos1 env) with
              | some (.node ini, pos2, env1) =>
                match run fuel .expr toks pos2 env1 with
                | some (.node cond, pos3, env2) =>
                  match expect .Semicolon toks pos3 with
                  | none => none
                  | some pos4 =>
                    match run fuel .expr toks pos4 env2 with
                    | some (.node inc_e, pos5, env3) =>
                      match expect .RightParen toks pos5 with
                      | none => none
                      | some pos6 =>
                        match run fuel .stmt toks pos6 env3 with
                        | some (.node body, pos7, env4) =>
                          some (.node (Node.new (.For ini cond
                            (Node.new (.ExprStmt inc_e)) body)), pos7, env4)
                        | _ => none
                    | _ => none
                | _ => none
              | _ => none
        | .While =>
          match expect .LeftParen toks (pos + 1) with
          | none => none
          | some pos1 =>
            match run fuel .expr toks pos1 env with
            | some (.node cond, pos2, env1) =>
              match expect .RightParen toks pos2 with
              | none => none
              | some pos3 =>
                match run fuel .stmt toks pos3 env1 with
                | some (.node body, pos4, env2) =>
                  some (.node (Node.new (.For (Node.new .Null) cond (Node.new .Null)
                    body)), pos4, env2)
                | _ => none
            | _ => none
        | .Do =>
          match run fuel .stmt toks (pos + 1) env with
          | some (.node body, pos1, env1) =>
            match expect .While toks pos1 with
            | none => none
            | some pos2 =>
              match expect .LeftParen toks pos2 with
              | none => none
              | some pos3 =>
                match run fuel .expr toks pos3 env1 with
                | some (.node cond, pos4, env2) =>
                  match expect .RightParen toks pos4 with
                  | none => none
                  | some pos5 =>
                    match expect .Semicolon toks pos5 with
                    | none => none
                    | some pos6 =>
                      some (.node (Node.new (.DoWhile body cond)), pos6, env2)
                | _ => none
          | _ => none
        | .Return =>
          match run fuel .expr toks (pos + 1) env with
          | some (.node e, pos1, env1) =>
            match expect .Semicolon toks pos1 with
            | none => none
            | some pos2 => some (.node (Node.new (.Return e)), pos2, env1)
          | _ => none
        | .LeftBrace =>
          match run fuel (.stmt_list_loop []) toks (pos + 1) env with
          | some (.nodes stmts, pos1, env1) =>
            some (.node (Node.new (.CompStmt stmts)), pos1, env1)
          | _ => none
        | .Semicolon => some (.node (Node.new .Null), pos + 1, env)
        | _ =>
          if is_typename t env then run fuel .decl toks pos env
          else run fuel .expr_stmt toks pos env
    -- statement loop shared by the LeftBrace case of fn stmt and by fn
    -- compound_stmt: while the closing brace is not consumed, read one
    -- statement
    | .stmt_list_loop acc =>
      match consume .RightBrace toks pos with
      | none => none
      | some (true, pos1) => some (.nodes acc, pos1, env)
      | some (false, pos1) =>
        match run fuel .stmt toks pos1 env with
        | some (.node s, pos2, env1) =>
          run fuel (.stmt_list_loop (acc ++ [s])) toks pos2 env1
        | _ => none
    -- fn compound_stmt: pushes a fresh frame whose parent is the entry
    -- environment, runs the statement loop, then pops by returning to the
    -- frame recorded as parent (the unwrap of a missing parent aborts)
    | .compound_stmt =>
      match run fuel (.stmt_list_loop []) toks pos (Env.new (some env)) with
      | some (.nodes stmts, pos1, env1) =>
        match env1.next with
        | none => none
        | some parent => some (.node (Node.new (.CompStmt stmts)), pos1, parent)
      | _ => none
    -- parameter loop of the function case of fn toplevel
    | .params_loop acc =>
      match consume .Comma toks pos with
      | none => none
      | some (false, pos1) => some (.nodes acc, pos1, env)
      | some (true, pos1) =>
        match run fuel .param toks pos1 env with
        | some (.node a, pos2, env1) =>
          run fuel (.params_loop (acc ++ [a])) toks pos2 env1
        | _ => none
    -- fn toplevel
    | .toplevel =>
      match consume .Extern toks pos with
      | none => none
      | some (is_ext, pos1) =>
        match run fuel .ctype toks pos1 env with
        | some (.ty ty, pos2, env1) =>
          match toks[pos2]? with
          | none => none
          | some t =>
            match t.ty with
            | .Ident name =>
              match consume .LeftParen toks (pos2 + 1) with
              | none => none
              | some (true, pos3) =>
                match consume .RightParen toks pos3 with
                | none => none
                | some (true, pos4) =>
                  match expect .LeftBrace toks pos4 with
                  | none => none
                  | some pos5 =>
                    match run fuel .compound_stmt toks pos5 env1 with
                    | some (.node body, pos6, env2) =>
                      some (.node (Node.new (.Func name [] body 0)), pos6, env2)
                    | _ => none
                | some (false, pos4) =>
                  match run fuel .param toks pos4 env1 with
                  | some (.node a, pos5, env2) =>
                    match run fuel (.params_loop [a]) toks pos5 env2 with
                    | some (.nodes args, pos6, env3) =>
                      match expect .RightParen toks pos6 with
                      | none => none
                      | some pos7 =>
                        match expect .LeftBrace toks pos7 with
                        | none => none
                        | some pos8 =>
                          match run fuel .compound_stmt toks pos8 env3 with
                          | some (.node body, pos9, env4) =>
                            some (.node (Node.new (.Func name args body 0)), pos9, env4)
                          | _ => none
                    | _ => none
                  | _ => none
              | some (false, pos3) =>
                match run fuel (.read_array ty) toks pos3 env1 with
                | some (.ty ty2, pos4, env2) =>
                  match expect .Semicolon toks pos4 with
                  | none => none
                  | some pos5 =>
                    if is_ext then
                      some (.node (Node.mk (.Vardef name none (.Global "" 0 true)) ty2),
                        pos5, env2)
                    else
                      some (.node (Node.mk (.Vardef name none
                        (.Global "" ty2.size false)) ty2), pos5, env2)
                | _ => none
            | _ => none
        | _ => none
    -- top-level loop of fn parse: one toplevel item per iteration until
    -- the cursor reaches the end of the token list
    | .toplevel_loop acc =>
      if toks.length = pos then some (.nodes acc, pos, env)
      else
        match run fuel .toplevel toks pos env with
        | some (.node n, pos1, env1) =>
          run fuel (.toplevel_loop (acc ++ [n])) toks pos1 env1
        | _ => none

/-- fn read_type, with its source signature (see run). -/
def read_type (fuel : Nat) (t : Token) (toks : List Token) (pos : Nat)
    (env : Env) : Option (Option Ty × Nat × Env) :=
  match run fuel (.read_type t) toks pos env with
  | some (.opt_ty ty, pos1, env1) => some (ty, pos1, env1)
  | _ => none

/-- fn primary, with its source signature (see run). -/
def primary (fuel : Nat) (toks : List Token) (pos : Nat) (env : Env) :
    Option (Node × Nat × Env) :=
  match run fuel .primary toks pos env with
  | some (.node n, pos1, env1) => some (n, pos1, env1)
  | _ => none

/-- fn postfix, with its source signature (see run). -/
def postfix_expr (fuel : Nat) (toks : List Token) (pos : Nat) (env : Env) :
    Option (Node × Nat × Env) :=
  match run fuel .postfix_expr toks pos env with
  | some (.node n, pos1, env1) => some (n, pos1, env1)
  | _ => none

/-- fn unary, with its source signature (see run). -/
def unary (fuel : Nat) (toks : List Token) (pos : Nat) (env : Env) :
    Option (Node × Nat × Env) :=
  match run fuel .unary toks pos env with
  | some (.node n, pos1, env1) => some (n, pos1, env1)
  | _ => none

/-- fn mul, with its source signature (see run). -/
def mul (fuel : Nat) (toks : List Token) (pos : Nat) (env : Env) :
    Option (Node × Nat × Env) :=
  match run fuel .mul toks pos env with
  | some (.node n, pos1, env1) => some (n, pos1, env1)
  | _ => none

/-- fn add, with its source signature (see run). -/
def add (fuel : Nat) (toks : List Token) (pos : Nat) (env : Env) :
    Option (Node × Nat × Env) :=
  match run fuel .add toks pos env with
  | some (.node n, pos1, env1) => some (n, pos1, env1)
  | _ => none

/-- fn shift, with its source signature (see run). -/
def shift (fuel : Nat) (toks : List Token) (pos : Nat) (env : Env) :
    Option (Node × Nat × Env) :=
  match run fuel .shift toks pos env with
  | some (.node n, pos1, env1) => some (n, pos1, env1)
  | _ => none

/-- fn relational, with its source signature (see run). -/
def relational (fuel : Nat) (toks : List Token) (pos : Nat) (env : Env) :
    Option (Node × Nat × Env) :=
  match run fuel .relational toks pos env with
  | some (.node n, pos1, env1) => some (n, pos1, env1)
  | _ => none

/-- fn equality, with its source signature (see run). -/
def equality (fuel : Nat) (toks : List Token) (pos : Nat) (env : Env) :
    Option (Node × Nat × Env) :=
  match run fuel .equality toks pos env with
  | some (.node n, pos1, env1) => some (n, pos1, env1)
  | _ => none

/-- fn bit_and, with its source signature (see run). -/
def bit_and (fuel : Nat) (toks : List Token) (pos : Nat) (env : Env) :
    Option (Node × Nat × Env) :=
  match run fuel .bit_and toks pos env with
  | some (.node n, pos1, env1) => some (n, pos1, env1)
  | _ => none

/-- fn bit_xor, with its source signature (see run). -/
def bit_xor (fuel : Nat) (toks : List Token) (pos : Nat) (env : Env) :
    Option (Node × Nat × Env) :=
  match run fuel .bit_xor toks pos env with
  | some (.node n, pos1, env1) => some (n, pos1, env1)
  | _ => none

/-- fn bit_or, with its source signature (see run). -/
def bit_or (fuel : Nat) (toks : List Token) (pos : Nat) (env : Env) :
    Option (Node × Nat × Env) :=
  match run fuel .bit_or toks pos env with
  | some (.node n, pos1, env1) => some (n, pos1, env1)
  | _ => none

/-- fn logand, with its source signature (see run). -/
def logand (fuel : Nat) (toks : List Token) (pos : Nat) (env : Env) :
    Option (Node × Nat × Env) :=
  match run fuel .logand toks pos env with
  | some (.node n, pos1, env1) => some (n, pos1, env1)
  | _ => none

/-- fn logor, with its source signature (see run). -/
def logor (fuel : Nat) (toks : List Token) (pos : Nat) (env : Env) :
    Option (Node × Nat × Env) :=
  match run fuel .logor toks pos env with
  | some (.node n, pos1, env1) => some (n, pos1, env1)
  | _ => none

/-- fn conditional, with its source signature (see run). -/
def conditional (fuel : Nat) (toks : List Token) (pos : Nat) (env : Env) :
    Option (Node × Nat × Env) :=
  match run fuel .conditional toks pos env with
  | some (.node n, pos1, env1) => some (n, pos1, env1)
  | _ => none

/-- fn assign, with its source signature (see run). -/
def assign (fuel : Nat) (toks : List Token) (pos : Nat) (env : Env) :
    Option (Node × Nat × Env) :=
  match run fuel .assign toks pos env with
  | some (.node n, pos1, env1) => some (n, pos1, env1)
  | _ => none

/-- fn expr, with its source signature (see run). -/
def expr (fuel : Nat) (toks : List Token) (pos : Nat) (env : Env) :
    Option (Node × Nat × Env) :=
  match run fuel .expr toks pos env with
  | some (.node n, pos1, env1) => some (n, pos1, env1)
  | _ => none

/-- fn ctype, with its source signature (see run). -/
def ctype (fuel : Nat) (toks : List Token) (pos : Nat) (env : Env) :
    Option (Ty × Nat × Env) :=
  match run fuel .ctype toks pos env with
  | some (.ty ty, pos1, env1) => some (ty, pos1, env1)
  | _ => none

/-- fn read_array, with its source signature (see run). -/
def read_array (fuel : Nat) (ty : Ty) (toks : List Token) (pos : Nat)
    (env : Env) : Option (Ty × Nat × Env) :=
  match run fuel (.read_array ty) toks pos env with
  | some (.ty ty1, pos1, env1) => some (ty1, pos1, env1)
  | _ => none

/-- fn decl, with its source signature (see run). -/
def decl (fuel : Nat) (toks : List Token) (pos : Nat) (env : Env) :
    Option (Node × Nat × Env) :=
  match run fuel .decl toks pos env with
  | some (.node n, pos1, env1) => some (n, pos1, env1)
  | _ => none

/-- fn array_init_rval, with its source signature (see run). -/
def array_init_rval (fuel : Nat) (toks : List Token) (pos : Nat) (env : Env)
    (id_node : Node) : Option (Node × Nat × Env) :=
  match run fuel (.array_init_rval id_node) toks pos env with
  | some (.node n, pos1, env1) => some (n, pos1, env1)
  | _ => none

/-- fn param, with its source signature (see run). -/
def param (fuel : Nat) (toks : List Token) (pos : Nat) (env : Env) :
    Option (Node × Nat × Env) :=
  match run fuel .param toks pos env with
  | some (.node n, pos1, env1) => some (n, pos1, env1)
  | _ => none

/-- fn expr_stmt, with its source signature (see run). -/
def expr_stmt (fuel : Nat) (toks : List Token) (pos : Nat) (env : Env) :
    Option (Node × Nat × Env) :=
  match run fuel .expr_stmt toks pos env with
  | some (.node n, pos1, env1) => some (n, pos1, env1)
  | _ => none

/-- fn stmt, with its source signature (see run). -/
def stmt (fuel : Nat) (toks : List Token) (pos : Nat) (env : Env) :
    Option (Node × Nat × Env) :=
  match run fuel .stmt toks pos env with
  | some (.node n, pos1, env1) => some (n, pos1, env1)
  | _ => none

/-- fn compound_stmt, with its source signature (see run). -/
def compound_stmt (fuel : Nat) (toks : List Token) (pos : Nat) (env : Env) :
    Option (Node × Nat × Env) :=
  match run fuel .compound_stmt toks pos env with
  | some (.node n, pos1, env1) => some (n, pos1, env1)
  | _ => none

/-- fn toplevel, with its source signature (see run). -/
def toplevel (fuel : Nat) (toks : List Token) (pos : Nat) (env : Env) :
    Option (Node × Nat × Env) :=
  match run fuel .toplevel toks pos env with
  | some (.node n, pos1, env1) => some (n, pos1, env1)
  | _ => none

/-- fn parse: runs the toplevel loop from cursor 0 with the root
environment (Env::new(None), as the lazy static initializes it). -/
def parse (fuel : Nat) (toks : List Token) : Option (List Node × Nat × Env) :=
  match run fuel (.toplevel_loop []) toks 0 (Env.new none) with
  | some (.nodes v, pos1, env1) => some (v, pos1, env1)
  | _ => none

/-- A successful consume never moves the cursor backward. -/
theorem consume_pos {ty : TokenType} {toks : List Token} {pos : Nat} {b : Bool}
    {pos1 : Nat} (h : consume ty toks pos = some (b, pos1)) :
    pos ≤ pos1 ∧ pos1 ≤ pos + 1 := by
  unfold consume at h
  split at h
  · exact Option.noConfusion h
  · split at h <;>
      (injection h with h; injection h with h1 h2; subst h2; omega)

/-- A successful consume that matched advances the cursor by one. -/
theorem consume_true_pos {ty : TokenType} {toks : List Token} {pos pos1 : Nat}
    (h : consume ty toks pos = some (true, pos1)) : pos1 = pos + 1 := by
  unfold consume at h
  split at h
  · exact Option.noConfusion h
  · split at h <;> (injection h with h; injection h with h1 h2; simp_all)

/-- A successful consume that did not match leaves the cursor unchanged. -/
theorem consume_false_pos {ty : TokenType} {toks : List Token} {pos pos1 : Nat}
    (h : consume ty toks pos = some (false, pos1)) : pos1 = pos := by
  unfold consume at h
  split at h
  · exact Option.noConfusion h
  · split at h <;> (injection h with h; injection h with h1 h2; simp_all)

/-- A successful expect advances the cursor by one. -/
theorem expect_pos {ty : TokenType} {toks : List Token} {pos pos1 : Nat}
    (h : expect ty toks pos = some pos1) : pos1 = pos + 1 := by
  unfold expect at h
  split at h
  · exact Option.noConfusion h
  · split at h
    · injection h with h; omega
    · exact Option.noConfusion h

/-- A successful ident advances the cursor by one. -/
theorem ident_pos {toks : List Token} {pos : Nat} {name : String} {pos1 : Nat}
    (h : ident toks pos = some (name, pos1)) : pos1 = pos + 1 := by
  unfold ident at h
  split at h
  · exact Option.noConfusion h
  · split at h
    · injection h with h; injection h with h1 h2; omega
    · exact Option.noConfusion h

/-- The struct tail neither moves the cursor nor changes the parent frame. -/
theorem read_type_struct_tail_inv {tag_may : Option String} {members : List Node}
    {pos : Nat} {env : Env} {ty : Option Ty} {pos1 : Nat} {env1 : Env}
    (h : read_type_struct_tail tag_may members pos env = some (ty, pos1, env1)) :
    pos1 = pos ∧ env1.next = env.next := by
  unfold read_type_struct_tail at h
  split at h
  · split at h
    · split at h
      · split at h
        · exact Option.noConfusion h
        · split at h
          · exact Option.noConfusion h
          · injection h with h; injection h with h1 h2; injection h2 with h3 h4
            subst h3; subst h4; exact ⟨rfl, rfl⟩
      · split at h
        · exact Option.noConfusion h
        · injection h with h; injection h with h1 h2; injection h2 with h3 h4
          subst h3; subst h4; exact ⟨rfl, rfl⟩
    · split at h
      · exact Option.noConfusion h
      · injection h with h; injection h with h1 h2; injection h2 with h3 h4
        subst h3; subst h4
        exact ⟨rfl, rfl⟩
  · split at h
    · exact Option.noConfusion h
    · split at h
      · exact Option.noConfusion h
      · injection h with h; injection h with h1 h2; injection h2 with h3 h4
        subst h3; subst h4; exact ⟨rfl, rfl⟩

/-- Wrapper inversion: primary succeeds exactly when run does on its descriptor. -/
theorem primary_eq_iff {fuel : Nat} {toks : List Token} {pos : Nat} {env : Env}
    {n : Node} {pos1 : Nat} {env1 : Env} :
    primary fuel toks pos env = some (n, pos1, env1) ↔
      run fuel .primary toks pos env = some (.node n, pos1, env1) := by
  constructor
  · intro h
    unfold primary at h
    split at h
    · rename_i n2 pos2 env2 heq
      injection h with h; injection h with h1 h2; injection h2 with h3 h4
      subst h1; subst h3; subst h4; exact heq
    · exact Option.noConfusion h
  · intro h; unfold primary; rw [h]

/-- Wrapper inversion: postfix_expr succeeds exactly when run does on its descriptor. -/
theorem postfix_expr_eq_iff {fuel : Nat} {toks : List Token} {pos : Nat} {env : Env}
    {n : Node} {pos1 : Nat} {env1 : Env} :
    postfix_expr fuel toks pos env = some (n, pos1, env1) ↔
      run fuel .postfix_expr toks pos env = some (.node n, pos1, env1) := by
  constructor
  · intro h
    unfold postfix_expr at h
    split at h
    · rename_i n2 pos2 env2 heq
      injection h with h; injection h with h1 h2; injection h2 with h3 h4
      subst h1; subst h3; subst h4; exact heq
    · exact Option.noConfusion h
  · intro h; unfold postfix_expr; rw [h]

/-- Wrapper inversion: unary succeeds exactly when run does on its descriptor. -/
theorem unary_eq_iff {fuel : Nat} {toks : List Token} {pos : Nat} {env : Env}
    {n : Node} {pos1 : Nat} {env1 : Env} :
    unary fuel toks pos env = some (n, pos1, env1) ↔
      run fuel .unary toks pos env = some (.node n, pos1, env1) := by
  constructor
  · intro h
    unfold unary at h
    split at h
    · rename_i n2 pos2 env2 heq
      injection h with h; injection h with h1 h2; injection h2 with h3 h4
      subst h1; subst h3; subst h4; exact heq
    · exact Option.noConfusion h
  · intro h; unfold unary; rw [h]

/-- Wrapper inversion: mul succeeds exactly when run does on its descriptor. -/
theorem mul_eq_iff {fuel : Nat} {toks : List Token} {pos : Nat} {env : Env}
    {n : Node} {pos1 : Nat} {env1 : Env} :
    mul fuel toks pos env = some (n, pos1, env1) ↔
      run fuel .mul toks pos env = some (.node n, pos1, env1) := by
  constructor
  · intro h
    unfold mul at h
    split at h
    · rename_i n2 pos2 env2 heq
      injection h with h; injection h with h1 h2; injection h2 with h3 h4
      subst h1; subst h3; subst h4; exact heq
    · exact Option.noConfusion h
  · intro h; unfold mul; rw [h]

/-- Wrapper inversion: add succeeds exactly when run does on its descriptor. -/
theorem add_eq_iff {fuel : Nat} {toks : List Token} {pos : Nat} {env : Env}
    {n : Node} {pos1 : Nat} {env1 : Env} :
    add fuel toks pos env = some (n, pos1, env1) ↔
      run fuel .add toks pos env = some (.node n, pos1, env1) := by
  constructor
  · intro h
    unfold add at h
    split at h
    · rename_i n2 pos2 env2 heq
      injection h with h; injection h with h1 h2; injection h2 with h3 h4
      subst h1; subst h3; subst h4; exact heq
    · exact Option.noConfusion h
  · intro h; unfold add; rw [h]

/-- Wrapper inversion: shift succeeds exactly when run does on its descriptor. -/
theorem shift_eq_iff {fuel : Nat} {toks : List Token} {pos : Nat} {env : Env}
    {n : Node} {pos1 : Nat} {env1 : Env} :
    shift fuel toks pos env = some (n, pos1, env1) ↔
      run fuel .shift toks pos env = some (.node n, pos1, env1) := by
  constructor
  · intro h
    unfold shift at h
    split at h
    · rename_i n2 pos2 env2 heq
      injection h with h; injection h with h1 h2; injection h2 with h3 h4
      subst h1; subst h3; subst h4; exact heq
    · exact Option.noConfusion h
  · intro h; unfold shift; rw [h]

/-- Wrapper inversion: relational succeeds exactly when run does on its descriptor. -/
theorem relational_eq_iff {fuel : Nat} {toks : List Token} {pos : Nat} {env : Env}
    {n : Node} {pos1 : Nat} {env1 : Env} :
    relational fuel toks pos env = some (n, pos1, env1) ↔
      run fuel .relational toks pos env = some (.node n, pos1, env1) := by
  constructor
  · intro h
    unfold relational at h
    split at h
    · rename_i n2 pos2 env2 heq
      injection h with h; injection h with h1 h2; injection h2 with h3 h4
      subst h1; subst h3; subst h4; exact heq
    · exact Option.noConfusion h
  · intro h; unfold relational; rw [h]

/-- Wrapper inversion: equality succeeds exactly when run does on its descriptor. -/
theorem equality_eq_iff {fuel : Nat} {toks : List Token} {pos : Nat} {env : Env}
    {n : Node} {pos1 : Nat} {env1 : Env} :
    equality fuel toks pos env = some (n, pos1, env1) ↔
      run fuel .equality toks pos env = some (.node n, pos1, env1) := by
  constructor
  · intro h
    unfold equality at h
    split at h
    · rename_i n2 pos2 env2 heq
      injection h with h; injection h with h1 h2; injection h2 with h3 h4
      subst h1; subst h3; subst h4; exact heq
    · exact Option.noConfusion h
  · intro h; unfold equality; rw [h]

/-- Wrapper inversion: bit_and succeeds exactly when run does on its descriptor. -/
theorem bit_and_eq_iff {fuel : Nat} {toks : List Token} {pos : Nat} {env : Env}
    {n : Node} {pos1 : Nat} {env1 : Env} :
    bit_and fuel toks pos env = some (n, pos1, env1) ↔
      run fuel .bit_and toks pos env = some (.node n, pos1, env1) := by
  constructor
  · intro h
    unfold bit_and at h
    split at h
    · rename_i n2 pos2 env2 heq
      injection h with h; injection h with h1 h2; injection h2 with h3 h4
      subst h1; subst h3; subst h4; exact heq
    · exact Option.noConfusion h
  · intro h; unfold bit_and; rw [h]

/-- Wrapper inversion: bit_xor succeeds exactly when run does on its descriptor. -/
theorem bit_xor_eq_iff {fuel : Nat} {toks : List Token} {pos : Nat} {env : Env}
    {n : Node} {pos1 : Nat} {env1 : Env} :
    bit_xor fuel toks pos env = some (n, pos1, env1) ↔
      run fuel .bit_xor toks pos env = some (.node n, pos1, env1) := by
  constructor
  · intro h
    unfold bit_xor at h
    split at h
    · rename_i n2 pos2 env2 heq
      injection h with h; injection h with h1 h2; injection h2 with h3 h4
      subst h1; subst h3; subst h4; exact heq
    · exact Option.noConfusion h
  · intro h; unfold bit_xor; rw [h]

/-- Wrapper inversion: bit_or succeeds exactly when run does on its descriptor. -/
theorem bit_or_eq_iff {fuel : Nat} {toks : List Token} {pos : Nat} {env : Env}
    {n : Node} {pos1 : Nat} {env1 : Env} :
    bit_or fuel toks pos env = some (n, pos1, env1) ↔
      run fuel .bit_or toks pos env = some (.node n, pos1, env1) := by
  constructor
  · intro h
    unfold bit_or at h
    split at h
    · rename_i n2 pos2 env2 heq
      injection h with h; injection h with h1 h2; injection h2 with h3 h4
      subst h1; subst h3; subst h4; exact heq
    · exact Option.noConfusion h
  · intro h; unfold bit_or; rw [h]

/-- Wrapper inversion: logand succeeds exactly when run does on its descriptor. -/
theorem logand_eq_iff {fuel : Nat} {toks : List Token} {pos : Nat} {env : Env}
    {n : Node} {pos1 : Nat} {env1 : Env} :
    logand fuel toks pos env = some (n, pos1, env1) ↔
      run fuel .logand toks pos env = some (.node n, pos1, env1) := by
  constructor
  · intro h
    unfold logand at h
    split at h
    · rename_i n2 pos2 env2 heq
      injection h with h; injection h with h1 h2; injection h2 with h3 h4
      subst h1; subst h3; subst h4; exact heq
    · exact Option.noConfusion h
  · intro h; unfold logand; rw [h]

/-- Wrapper inversion: logor succeeds exactly when run does on its descriptor. -/
theorem logor_eq_iff {fuel : Nat} {toks : List Token} {pos : Nat} {env : Env}
    {n : Node} {pos1 : Nat} {env1 : Env} :
    logor fuel toks pos env = some (n, pos1, env1) ↔
      run fuel .logor toks pos env = some (.node n, pos1, env1) := by
  constructor
  · intro h
    unfold logor at h
    split at h
    · rename_i n2 pos2 env2 heq
      injection h with h; injection h with h1 h2; injection h2 with h3 h4
      subst h1; subst h3; subst h4; exact heq
    · exact Option.noConfusion h
  · intro h; unfold logor; rw [h]

/-- Wrapper inversion: conditional succeeds exactly when run does on its descriptor. -/
theorem conditional_eq_iff {fuel : Nat} {toks : List Token} {pos : Nat} {env : Env}
    {n : Node} {pos1 : Nat} {env1 : Env} :
    conditional fuel toks pos env = some (n, pos1, env1) ↔
      run fuel .conditional toks pos env = some (.node n, pos1, env1) := by
  constructor
  · intro h
    unfold conditional at h
    split at h
    · rename_i n2 pos2 env2 heq
      injection h with h; injection h with h1 h2; injection h2 with h3 h4
      subst h1; subst h3; subst h4; exact heq
    · exact Option.noConfusion h
  · intro h; unfold conditional; rw [h]

/-- Wrapper inversion: assign succeeds exactly when run does on its descriptor. -/
theorem assign_eq_iff {fuel : Nat} {toks : List Token} {pos : Nat} {env : Env}
    {n : Node} {pos1 : Nat} {env1 : Env} :
    assign fuel toks pos env = some (n, pos1, env1) ↔
      run fuel .assign toks pos env = some (.node n, pos1, env1) := by
  constructor
  · intro h
    unfold assign at h
    split at h
    · rename_i n2 pos2 env2 heq
      injection h with h; injection h with h1 h2; injection h2 with h3 h4
      subst h1; subst h3; subst h4; exact heq
    · exact Option.noConfusion h
  · intro h; unfold assign; rw [h]

/-- Wrapper inversion: expr succeeds exactly when run does on its descriptor. -/
theorem expr_eq_iff {fuel : Nat} {toks : List Token} {pos : Nat} {env : Env}
    {n : Node} {pos1 : Nat} {env1 : Env} :
    expr fuel toks pos env = some (n, pos1, env1) ↔
      run fuel .expr toks pos env = some (.node n, pos1, env1) := by
  constructor
  · intro h
    unfold expr at h
    split at h
    · rename_i n2 pos2 env2 heq
      injection h with h; injection h with h1 h2; injection h2 with h3 h4
      subst h1; subst h3; subst h4; exact heq
    · exact Option.noConfusion h
  · intro h; unfold expr; rw [h]

/-- Wrapper inversion: expr_stmt succeeds exactly when run does on its descriptor. -/
theorem expr_stmt_eq_iff {fuel : Nat} {toks : List Token} {pos : Nat} {env : Env}
    {n : Node} {pos1 : Nat} {env1 : Env} :
    expr_stmt fuel toks pos env = some (n, pos1, env1) ↔
      run fuel .expr_stmt toks pos env = some (.node n, pos1, env1) := by
  constructor
  · intro h
    unfold expr_stmt at h
    split at h
    · rename_i n2 pos2 env2 heq
      injection h with h; injection h with h1 h2; injection h2 with h3 h4
      subst h1; subst h3; subst h4; exact heq
    · exact Option.noConfusion h
  · intro h; unfold expr_stmt; rw [h]

/-- Wrapper inversion: stmt succeeds exactly when run does on its descriptor. -/
theorem stmt_eq_iff {fuel : Nat} {toks : List Token} {pos : Nat} {env : Env}
    {n : Node} {pos1 : Nat} {env1 : Env} :
    stmt fuel toks pos env = some (n, pos1, env1) ↔
      run fuel .stmt toks pos env = some (.node n, pos1, env1) := by
  constructor
  · intro h
    unfold stmt at h
    split at h
    · rename_i n2 pos2 env2 heq
      injection h with h; injection h with h1 h2; injection h2 with h3 h4
      subst h1; subst h3; subst h4; exact heq
    · exact Option.noConfusion h
  · intro h; unfold stmt; rw [h]

/-- Wrapper inversion: compound_stmt succeeds exactly when run does on its descriptor. -/
theorem compound_stmt_eq_iff {fuel : Nat} {toks : List Token} {pos : Nat} {env : Env}
    {n : Node} {pos1 : Nat} {env1 : Env} :
    compound_stmt fuel toks pos env = some (n, pos1, env1) ↔
      run fuel .compound_stmt toks pos env = some (.node n, pos1, env1) := by
  constructor
  · intro h
    unfold compound_stmt at h
    split at h
    · rename_i n2 pos2 env2 heq
      injection h with h; injection h with h1 h2; injection h2 with h3 h4
      subst h1; subst h3; subst h4; exact heq
    · exact Option.noConfusion h
  · intro h; unfold compound_stmt; rw [h]

/-- Wrapper inversion: toplevel succeeds exactly when run does on its descriptor. -/
theorem toplevel_eq_iff {fuel : Nat} {toks : List Token} {pos : Nat} {env : Env}
    {n : Node} {pos1 : Nat} {env1 : Env} :
    toplevel fuel toks pos env = some (n, pos1, env1) ↔
      run fuel .toplevel toks pos env = some (.node n, pos1, env1) := by
  constructor
  · intro h
    unfold toplevel at h
    split at h
    · rename_i n2 pos2 env2 heq
      injection h with h; injection h with h1 h2; injection h2 with h3 h4
      subst h1; subst h3; subst h4; exact heq
    · exact Option.noConfusion h
  · intro h; unfold toplevel; rw [h]

/-- Wrapper inversion: decl succeeds exactly when run does on its descriptor. -/
theorem decl_eq_iff {fuel : Nat} {toks : List Token} {pos : Nat} {env : Env}
    {n : Node} {pos1 : Nat} {env1 : Env} :
    decl fuel toks pos env = some (n, pos1, env1) ↔
      run fuel .decl toks pos env = some (.node n, pos1, env1) := by
  constructor
  · intro h
    unfold decl at h
    split at h
    · rename_i n2 pos2 env2 heq
      injection h with h; injection h with h1 h2; injection h2 with h3 h4
      subst h1; subst h3; subst h4; exact heq
    · exact Option.noConfusion h
  · intro h; unfold decl; rw [h]

/-- Wrapper inversion: param succeeds exactly when run does on its descriptor. -/
theorem param_eq_iff {fuel : Nat} {toks : List Token} {pos : Nat} {env : Env}
    {n : Node} {pos1 : Nat} {env1 : Env} :
    param fuel toks pos env = some (n, pos1, env1) ↔
      run fuel .param toks pos env = some (.node n, pos1, env1) := by
  constructor
  · intro h
    unfold param at h
    split at h
    · rename_i n2 pos2 env2 heq
      injection h with h; injection h with h1 h2; injection h2 with h3 h4
      subst h1; subst h3; subst h4; exact heq
    · exact Option.noConfusion h
  · intro h; unfold param; rw [h]

/-- Wrapper inversion for read_type. -/
theorem read_type_eq_iff {fuel : Nat} {t : Token} {toks : List Token} {pos : Nat}
    {env : Env} {res : Option Ty} {pos1 : Nat} {env1 : Env} :
    read_type fuel t toks pos env = some (res, pos1, env1) ↔
      run fuel (.read_type t) toks pos env = some (.opt_ty res, pos1, env1) := by
  constructor
  · intro h
    unfold read_type at h
    split at h
    · rename_i r2 pos2 env2 heq
      injection h with h; injection h with h1 h2; injection h2 with h3 h4
      subst h1; subst h3; subst h4; exact heq
    · exact Option.noConfusion h
  · intro h; unfold read_type; rw [h]

/-- Wrapper inversion for ctype. -/
theorem ctype_eq_iff {fuel : Nat} {toks : List Token} {pos : Nat} {env : Env}
    {ty : Ty} {pos1 : Nat} {env1 : Env} :
    ctype fuel toks pos env = some (ty, pos1, env1) ↔
      run fuel .ctype toks pos env = some (.ty ty, pos1, env1) := by
  constructor
  · intro h
    unfold ctype at h
    split at h
    · rename_i t2 pos2 env2 heq
      injection h with h; injection h with h1 h2; injection h2 with h3 h4
      subst h1; subst h3; subst h4; exact heq
    · exact Option.noConfusion h
  · intro h; unfold ctype; rw [h]

/-- Wrapper inversion for read_array. -/
theorem read_array_eq_iff {fuel : Nat} {ty : Ty} {toks : List Token} {pos : Nat}
    {env : Env} {ty1 : Ty} {pos1 : Nat} {env1 : Env} :
    read_array fuel ty toks pos env = some (ty1, pos1, env1) ↔
      run fuel (.read_array ty) toks pos env = some (.ty ty1, pos1, env1) := by
  constructor
  · intro h
    unfold read_array at h
    split at h
    · rename_i t2 pos2 env2 heq
      injection h with h; injection h with h1 h2; injection h2 with h3 h4
      subst h1; subst h3; subst h4; exact heq
    · exact Option.noConfusion h
  · intro h; unfold read_array; rw [h]

/-- Wrapper inversion for array_init_rval. -/
theorem array_init_rval_eq_iff {fuel : Nat} {toks : List Token} {pos : Nat}
    {env : Env} {id_node : Node} {n : Node} {pos1 : Nat} {env1 : Env} :
    array_init_rval fuel toks pos env id_node = some (n, pos1, env1) ↔
      run fuel (.array_init_rval id_node) toks pos env = some (.node n, pos1, env1) := by
  constructor
  · intro h
    unfold array_init_rval at h
    split at h
    · rename_i n2 pos2 env2 heq
      injection h with h; injection h with h1 h2; injection h2 with h3 h4
      subst h1; subst h3; subst h4; exact heq
    · exact Option.noConfusion h
  · intro h; unfold array_init_rval; rw [h]

/-- Wrapper inversion for parse. -/
theorem parse_eq_iff {fuel : Nat} {toks : List Token} {v : List Node}
    {pos1 : Nat} {env1 : Env} :
    parse fuel toks = some (v, pos1, env1) ↔
      run fuel (.toplevel_loop []) toks 0 (Env.new none) = some (.nodes v, pos1, env1) := by
  constructor
  · intro h
    unfold parse at h
    split at h
    · rename_i v2 pos2 env2 heq
      injection h with h; injection h with h1 h2; injection h2 with h3 h4
      subst h1; subst h3; subst h4; exact heq
    · exact Option.noConfusion h
  · intro h; unfold parse; rw [h]

/-- Core invariant of the parser: a successful run never moves the cursor
backward, and it never changes the parent pointer of the environment (the
only frame mutations are insertions into the innermost maps, and the
push of compound_stmt is undone by its pop). -/
theorem run_mono : ∀ (fuel : Nat) (fn : PFn) (toks : List Token) (pos : Nat)
    (env : Env) (r : PRes) (p1 : Nat) (e1 : Env),
    run fuel fn toks pos env = some (r, p1, e1) →
    pos ≤ p1 ∧ e1.next = env.next := by
  intro fuel
  induction fuel with
  | zero => intro fn toks pos env r p1 e1 h; exact Option.noConfusion h
  | succ fuel ih =>
    intro fn toks pos env r p1 e1 h
    cases fn <;> simp only [run] at h
    case read_type t =>
      split at h
      · split at h
        · injection h with h; injection h with hx hy; injection hy with hp he
          subst hp; subst he; exact ⟨by omega, rfl⟩
        · injection h with h; injection h with hx hy; injection hy with hp he
          subst hp; subst he; exact ⟨by omega, rfl⟩
      · injection h with h; injection h with hx hy; injection hy with hp he
        subst hp; subst he; exact ⟨by omega, rfl⟩
      · injection h with h; injection h with hx hy; injection hy with hp he
        subst hp; subst he; exact ⟨by omega, rfl⟩
      · injection h with h; injection h with hx hy; injection hy with hp he
        subst hp; subst he; exact ⟨by omega, rfl⟩
      · split at h
        · exact Option.noConfusion h
        · rename_i t2 hget
          split at h
          · obtain ⟨ha, hb⟩ := ih _ _ _ _ _ _ _ h
            exact ⟨by omega, hb⟩
          · obtain ⟨ha, hb⟩ := ih _ _ _ _ _ _ _ h
            exact ⟨by omega, hb⟩
      · injection h with h; injection h with hx hy; injection hy with hp he
        subst hp; subst he; exact ⟨by omega, rfl⟩
    case read_type_struct tag_may =>
      split at h
      · exact Option.noConfusion h
      · rename_i pos2 hcons
        obtain ⟨ha, hb⟩ := consume_pos hcons
        split at h
        · exact Option.noConfusion h
        · rename_i ty pos3 env3 htail
          obtain ⟨hc, hd⟩ := read_type_struct_tail_inv htail
          injection h with h; injection h with hx hy; injection hy with hp he
          subst hp; subst he; exact ⟨by omega, by rw [hd]⟩
      · rename_i pos2 hcons
        obtain ⟨ha, hb⟩ := consume_pos hcons
        split at h
        · rename_i members pos3 env3 hc1
          obtain ⟨hc, hd⟩ := ih _ _ _ _ _ _ _ hc1
          split at h
          · exact Option.noConfusion h
          · rename_i ty pos4 env4 htail
            obtain ⟨he2, hf⟩ := read_type_struct_tail_inv htail
            injection h with h; injection h with hx hy; injection hy with hp he
            subst hp; subst he; exact ⟨by omega, by rw [hf, hd]⟩
        · exact Option.noConfusion h
    case struct_members_loop acc =>
      split at h
      · exact Option.noConfusion h
      · rename_i pos2 hcons
        obtain ⟨ha, hb⟩ := consume_pos hcons
        injection h with h; injection h with hx hy; injection hy with hp he
        subst hp; subst he; exact ⟨by omega, rfl⟩
      · rename_i pos2 hcons
        obtain ⟨ha, hb⟩ := consume_pos hcons
        split at h
        · rename_i n pos3 env3 hc1
          obtain ⟨hc, hd⟩ := ih _ _ _ _ _ _ _ hc1
          obtain ⟨he2, hf⟩ := ih _ _ _ _ _ _ _ h
          exact ⟨by omega, by rw [hf, hd]⟩
        · exact Option.noConfusion h
    case primary =>
      split at h
      · exact Option.noConfusion h
      · rename_i t hget
        split at h
        · injection h with h; injection h with hx hy; injection hy with hp he
          subst hp; subst he; exact ⟨by omega, rfl⟩
        · injection h with h; injection h with hx hy; injection hy with hp he
          subst hp; subst he; exact ⟨by omega, rfl⟩
        · split at h
          · exact Option.noConfusion h
          · rename_i pos2 hcons
            obtain ⟨ha, hb⟩ := consume_pos hcons
            injection h with h; injection h with hx hy; injection hy with hp he
            subst hp; subst he; exact ⟨by omega, rfl⟩
          · rename_i pos2 hcons
            obtain ⟨ha, hb⟩ := consume_pos hcons
            split at h
            · exact Option.noConfusion h
            · rename_i pos3 hcons2
              obtain ⟨hc, hd⟩ := consume_pos hcons2
              injection h with h; injection h with hx hy; injection hy with hp he
              subst hp; subst he; exact ⟨by omega, rfl⟩
            · rename_i pos3 hcons2
              obtain ⟨hc, hd⟩ := consume_pos hcons2
              split at h
              · rename_i a pos4 env4 hc1
                obtain ⟨he2, hf⟩ := ih _ _ _ _ _ _ _ hc1
                split at h
                · rename_i args pos5 env5 hc2
                  obtain ⟨hg, hh⟩ := ih _ _ _ _ _ _ _ hc2
                  split at h
                  · exact Option.noConfusion h
                  · rename_i pos6 hexp
                    have hi2 := expect_pos hexp
                    injection h with h; injection h with hx hy; injection hy with hp he
                    subst hp; subst he; exact ⟨by omega, by rw [hh, hf]⟩
                · exact Option.noConfusion h
              · exact Option.noConfusion h
        · split at h
          · exact Option.noConfusion h
          · rename_i pos2 hcons
            obtain ⟨ha, hb⟩ := consume_pos hcons
            split at h
            · rename_i st pos3 env3 hc1
              obtain ⟨hc, hd⟩ := ih _ _ _ _ _ _ _ hc1
              split at h
              · exact Option.noConfusion h
              · rename_i pos4 hexp
                have he2 := expect_pos hexp
                injection h with h; injection h with hx hy; injection hy with hp he
                subst hp; subst he; exact ⟨by omega, by rw [hd]⟩
            · exact Option.noConfusion h
          · rename_i pos2 hcons
            obtain ⟨ha, hb⟩ := consume_pos hcons
            split at h
            · rename_i nd pos3 env3 hc1
              obtain ⟨hc, hd⟩ := ih _ _ _ _ _ _ _ hc1
              split at h
              · exact Option.noConfusion h
              · rename_i pos4 hexp
                have he2 := expect_pos hexp
                injection h with h; injection h with hx hy; injection hy with hp he
                subst hp; subst he; exact ⟨by omega, by rw [hd]⟩
            · exact Option.noConfusion h
        · exact Option.noConfusion h
    case call_args_loop acc =>
      split at h
      · exact Option.noConfusion h
      · rename_i pos2 hcons
        obtain ⟨ha, hb⟩ := consume_pos hcons
        injection h with h; injection h with hx hy; injection hy with hp he
        subst hp; subst he; exact ⟨by omega, rfl⟩
      · rename_i pos2 hcons
        obtain ⟨ha, hb⟩ := consume_pos hcons
        split at h
        · rename_i a pos3 env3 hc1
          obtain ⟨hc, hd⟩ := ih _ _ _ _ _ _ _ hc1
          obtain ⟨he2, hf⟩ := ih _ _ _ _ _ _ _ h
          exact ⟨by omega, by rw [hf, hd]⟩
        · exact Option.noConfusion h
    case postfix_loop lhs =>
      split at h
      · exact Option.noConfusion h
      · rename_i pos2 hcons
        obtain ⟨ha, hb⟩ := consume_pos hcons
        split at h
        · exact Option.noConfusion h
        · rename_i name pos3 hid
          have hc := ident_pos hid
          obtain ⟨hd, he2⟩ := ih _ _ _ _ _ _ _ h
          exact ⟨by omega, he2⟩
      · rename_i pos2 hcons
        obtain ⟨ha, hb⟩ := consume_pos hcons
        split at h
        · exact Option.noConfusion h
        · rename_i pos3 hcons2
          obtain ⟨hc, hd⟩ := consume_pos hcons2
          split at h
          · exact Option.noConfusion h
          · rename_i name pos4 hid
            have he2 := ident_pos hid
            obtain ⟨hf, hg⟩ := ih _ _ _ _ _ _ _ h
            exact ⟨by omega, hg⟩
        · rename_i pos3 hcons2
          obtain ⟨hc, hd⟩ := consume_pos hcons2
          split at h
          · exact Option.noConfusion h
          · rename_i pos4 hcons3
            obtain ⟨he2, hf⟩ := consume_pos hcons3
            split at h
            · rename_i idx pos5 env5 hc1
              obtain ⟨hg, hh⟩ := ih _ _ _ _ _ _ _ hc1
              split at h
              · exact Option.noConfusion h
              · rename_i pos6 hexp
                have hi2 := expect_pos hexp
                obtain ⟨hj, hk⟩ := ih _ _ _ _ _ _ _ h
                exact ⟨by omega, by rw [hk, hh]⟩
            · exact Option.noConfusion h
          · rename_i pos4 hcons3
            obtain ⟨he2, hf⟩ := consume_pos hcons3
            injection h with h; injection h with hx hy; injection hy with hp he
            subst hp; subst he; exact ⟨by omega, rfl⟩
    case unary =>
      split at h
      · exact Option.noConfusion h
      · rename_i pos2 hcons1
        obtain ⟨ha, hb⟩ := consume_pos hcons1
        split at h
        · rename_i e pos3 env3 hc1
          obtain ⟨hc, hd⟩ := ih _ _ _ _ _ _ _ hc1
          injection h with h; injection h with hx hy; injection hy with hp he
          subst hp; subst he; exact ⟨by omega, by rw [hd]⟩
        · exact Option.noConfusion h
      · rename_i pos2 hcons1
        obtain ⟨ha, hb⟩ := consume_pos hcons1
        split at h
        · exact Option.noConfusion h
        · rename_i pos3 hcons2
          obtain ⟨hc, hd⟩ := consume_pos hcons2
          split at h
          · rename_i e pos4 env4 hc1
            obtain ⟨he2, hf⟩ := ih _ _ _ _ _ _ _ hc1
            injection h with h; injection h with hx hy; injection hy with hp he
            subst hp; subst he; exact ⟨by omega, by rw [hf]⟩
          · exact Option.noConfusion h
        · rename_i pos3 hcons2
          obtain ⟨hc, hd⟩ := consume_pos hcons2
          split at h
          · exact Option.noConfusion h
          · rename_i pos4 hcons3
            obtain ⟨he2, hf⟩ := consume_pos hcons3
            split at h
            · rename_i e pos5 env5 hc1
              obtain ⟨hg, hh⟩ := ih _ _ _ _ _ _ _ hc1
              injection h with h; injection h with hx hy; injection hy with hp he
              subst hp; subst he; exact ⟨by omega, by rw [hh]⟩
            · exact Option.noConfusion h
          · rename_i pos4 hcons3
            obtain ⟨he2, hf⟩ := consume_pos hcons3
            split at h
            · exact Option.noConfusion h
            · rename_i pos5 hcons4
              obtain ⟨hg, hh⟩ := consume_pos hcons4
              split at h
              · rename_i e pos6 env6 hc1
                obtain ⟨hi2, hj⟩ := ih _ _ _ _ _ _ _ hc1
                injection h with h; injection h with hx hy; injection hy with hp he
                subst hp; subst he; exact ⟨by omega, by rw [hj]⟩
              · exact Option.noConfusion h
            · rename_i pos5 hcons4
              obtain ⟨hg, hh⟩ := consume_pos hcons4
              split at h
              · exact Option.noConfusion h
              · rename_i pos6 hcons5
                obtain ⟨hi2, hj⟩ := consume_pos hcons5
                split at h
                · rename_i e pos7 env7 hc1
                  obtain ⟨hk, hl⟩ := ih _ _ _ _ _ _ _ hc1
                  injection h with h; injection h with hx hy; injection hy with hp he
                  subst hp; subst he; exact ⟨by omega, by rw [hl]⟩
                · exact Option.noConfusion h
              · rename_i pos6 hcons5
                obtain ⟨hi2, hj⟩ := consume_pos hcons5
                split at h
                · exact Option.noConfusion h
                · rename_i pos7 hcons6
                  obtain ⟨hk, hl⟩ := consume_pos hcons6
                  split at h
                  · rename_i e pos8 env8 hc1
                    obtain ⟨hm, hn⟩ := ih _ _ _ _ _ _ _ hc1
                    injection h with h; injection h with hx hy; injection hy with hp he
                    subst hp; subst he; exact ⟨by omega, by rw [hn]⟩
                  · exact Option.noConfusion h
                · rename_i pos7 hcons6
                  obtain ⟨hk, hl⟩ := consume_pos hcons6
                  obtain ⟨hm, hn⟩ := ih _ _ _ _ _ _ _ h
                  exact ⟨by omega, hn⟩
    case mul_loop lhs =>
      split at h
      · exact Option.noConfusion h
      · rename_i pos2 hcons
        obtain ⟨ha, hb⟩ := consume_pos hcons
        split at h
        · rename_i rhs pos3 env3 hc1
          obtain ⟨hc, hd⟩ := ih _ _ _ _ _ _ _ hc1
          obtain ⟨he2, hf⟩ := ih _ _ _ _ _ _ _ h
          exact ⟨by omega, by rw [hf, hd]⟩
        · exact Option.noConfusion h
      · rename_i pos2 hcons
        obtain ⟨ha, hb⟩ := consume_pos hcons
        split at h
        · exact Option.noConfusion h
        · rename_i pos3 hcons2
          obtain ⟨hc, hd⟩ := consume_pos hcons2
          split at h
          · rename_i rhs pos4 env4 hc1
            obtain ⟨he2, hf⟩ := ih _ _ _ _ _ _ _ hc1
            obtain ⟨hg, hh⟩ := ih _ _ _ _ _ _ _ h
            exact ⟨by omega, by rw [hh, hf]⟩
          · exact Option.noConfusion h
        · rename_i pos3 hcons2
          obtain ⟨hc, hd⟩ := consume_pos hcons2
          split at h
          · exact Option.noConfusion h
          · rename_i pos4 hcons3
            obtain ⟨he2, hf⟩ := consume_pos hcons3
            split at h
            · rename_i rhs pos5 env5 hc1
              obtain ⟨hg, hh⟩ := ih _ _ _ _ _ _ _ hc1
              obtain ⟨hi2, hj⟩ := ih _ _ _ _ _ _ _ h
              exact ⟨by omega, by rw [hj, hh]⟩
            · exact Option.noConfusion h
          · rename_i pos4 hcons3
            obtain ⟨he2, hf⟩ := consume_pos hcons3
            injection h with h; injection h with hx hy; injection hy with hp he
            subst hp; subst he; exact ⟨by omega, rfl⟩
    case add_loop lhs =>
      split at h
      · exact Option.noConfusion h
      · rename_i pos2 hcons
        obtain ⟨ha, hb⟩ := consume_pos hcons
        split at h
        · rename_i rhs pos3 env3 hc1
          obtain ⟨hc, hd⟩ := ih _ _ _ _ _ _ _ hc1
          obtain ⟨he2, hf⟩ := ih _ _ _ _ _ _ _ h
          exact ⟨by omega, by rw [hf, hd]⟩
        · exact Option.noConfusion h
      · rename_i pos2 hcons
        obtain ⟨ha, hb⟩ := consume_pos hcons
        split at h
        · exact Option.noConfusion h
        · rename_i pos3 hcons2
          obtain ⟨hc, hd⟩ := consume_pos hcons2
          split at h
          · rename_i rhs pos4 env4 hc1
            obtain ⟨he2, hf⟩ := ih _ _ _ _ _ _ _ hc1
            obtain ⟨hg, hh⟩ := ih _ _ _ _ _ _ _ h
            exact ⟨by omega, by rw [hh, hf]⟩
          · exact Option.noConfusion h
        · rename_i pos3 hcons2
          obtain ⟨hc, hd⟩ := consume_pos hcons2
          injection h with h; injection h with hx hy; injection hy with hp he
          subst hp; subst he; exact ⟨by omega, rfl⟩
    case shift_loop lhs =>
      split at h
      · exact Option.noConfusion h
      · rename_i pos2 hcons
        obtain ⟨ha, hb⟩ := consume_pos hcons
        split at h
        · rename_i rhs pos3 env3 hc1
          obtain ⟨hc, hd⟩ := ih _ _ _ _ _ _ _ hc1
          obtain ⟨he2, hf⟩ := ih _ _ _ _ _ _ _ h
          exact ⟨by omega, by rw [hf, hd]⟩
        · exact Option.noConfusion h
      · rename_i pos2 hcons
        obtain ⟨ha, hb⟩ := consume_pos hcons
        split at h
        · exact Option.noConfusion h
        · rename_i pos3 hcons2
          obtain ⟨hc, hd⟩ := consume_pos hcons2
          split at h
          · rename_i rhs pos4 env4 hc1
            obtain ⟨he2, hf⟩ := ih _ _ _ _ _ _ _ hc1
            obtain ⟨hg, hh⟩ := ih _ _ _ _ _ _ _ h
            exact ⟨by omega, by rw [hh, hf]⟩
          · exact Option.noConfusion h
        · rename_i pos3 hcons2
          obtain ⟨hc, hd⟩ := consume_pos hcons2
          injection h with h; injection h with hx hy; injection hy with hp he
          subst hp; subst he; exact ⟨by omega, rfl⟩
    case relational_loop lhs =>
      split at h
      · exact Option.noConfusion h
      · rename_i pos2 hcons
        obtain ⟨ha, hb⟩ := consume_pos hcons
        split at h
        · rename_i rhs pos3 env3 hc1
          obtain ⟨hc, hd⟩ := ih _ _ _ _ _ _ _ hc1
          obtain ⟨he2, hf⟩ := ih _ _ _ _ _ _ _ h
          exact ⟨by omega, by rw [hf, hd]⟩
        · exact Option.noConfusion h
      · rename_i pos2 hcons
        obtain ⟨ha, hb⟩ := consume_pos hcons
        split at h
        · exact Option.noConfusion h
        · rename_i pos3 hcons2
          obtain ⟨hc, hd⟩ := consume_pos hcons2
          split at h
          · rename_i rhs pos4 env4 hc1
            obtain ⟨he2, hf⟩ := ih _ _ _ _ _ _ _ hc1
            obtain ⟨hg, hh⟩ := ih _ _ _ _ _ _ _ h
            exact ⟨by omega, by rw [hh, hf]⟩
          · exact Option.noConfusion h
        · rename_i pos3 hcons2
          obtain ⟨hc, hd⟩ := consume_pos hcons2
          split at h
          · exact Option.noConfusion h
          · rename_i pos4 hcons3
            obtain ⟨he2, hf⟩ := consume_pos hcons3
            split at h
            · rename_i rhs pos5 env5 hc1
              obtain ⟨hg, hh⟩ := ih _ _ _ _ _ _ _ hc1
              obtain ⟨hi2, hj⟩ := ih _ _ _ _ _ _ _ h
              exact ⟨by omega, by rw [hj, hh]⟩
            · exact Option.noConfusion h
          · rename_i pos4 hcons3
            obtain ⟨he2, hf⟩ := consume_pos hcons3
            split at h
            · exact Option.noConfusion h
            · rename_i pos5 hcons4
              obtain ⟨hg, hh⟩ := consume_pos hcons4
              split at h
              · rename_i rhs pos6 env6 hc1
                obtain ⟨hi2, hj⟩ := ih _ _ _ _ _ _ _ hc1
                obtain ⟨hk, hl⟩ := ih _ _ _ _ _ _ _ h
                exact ⟨by omega, by rw [hl, hj]⟩
              · exact Option.noConfusion h
            · rename_i pos5 hcons4
              obtain ⟨hg, hh⟩ := consume_pos hcons4
              injection h with h; injection h with hx hy; injection hy with hp he
              subst hp; subst he; exact ⟨by omega, rfl⟩
    case equality_loop lhs =>
      split at h
      · exact Option.noConfusion h
      · rename_i pos2 hcons
        obtain ⟨ha, hb⟩ := consume_pos hcons
        split at h
        · rename_i rhs pos3 env3 hc1
          obtain ⟨hc, hd⟩ := ih _ _ _ _ _ _ _ hc1
          obtain ⟨he2, hf⟩ := ih _ _ _ _ _ _ _ h
          exact ⟨by omega, by rw [hf, hd]⟩
        · exact Option.noConfusion h
      · rename_i pos2 hcons
        obtain ⟨ha, hb⟩ := consume_pos hcons
        split at h
        · exact Option.noConfusion h
        · rename_i pos3 hcons2
          obtain ⟨hc, hd⟩ := consume_pos hcons2
          split at h
          · rename_i rhs pos4 env4 hc1
            obtain ⟨he2, hf⟩ := ih _ _ _ _ _ _ _ hc1
            obtain ⟨hg, hh⟩ := ih _ _ _ _ _ _ _ h
            exact ⟨by omega, by rw [hh, hf]⟩
          · exact Option.noConfusion h
        · rename_i pos3 hcons2
          obtain ⟨hc, hd⟩ := consume_pos hcons2
          injection h with h; injection h with hx hy; injection hy with hp he
          subst hp; subst he; exact ⟨by omega, rfl⟩
    case bit_and_loop lhs =>
      split at h
      · exact Option.noConfusion h
      · rename_i pos2 hcons
        obtain ⟨ha, hb⟩ := consume_pos hcons
        injection h with h; injection h with hx hy; injection hy with hp he
        subst hp; subst he; exact ⟨by omega, rfl⟩
      · rename_i pos2 hcons
        obtain ⟨ha, hb⟩ := consume_pos hcons
        split at h
        · rename_i rhs pos3 env3 hc1
          obtain ⟨hc, hd⟩ := ih _ _ _ _ _ _ _ hc1
          obtain ⟨he2, hf⟩ := ih _ _ _ _ _ _ _ h
          exact ⟨by omega, by rw [hf, hd]⟩
        · exact Option.noConfusion h
    case bit_xor_loop lhs =>
      split at h
      · exact Option.noConfusion h
      · rename_i pos2 hcons
        obtain ⟨ha, hb⟩ := consume_pos hcons
        injection h with h; injection h with hx hy; injection hy with hp he
        subst hp; subst he; exact ⟨by omega, rfl⟩
      · rename_i pos2 hcons
        obtain ⟨ha, hb⟩ := consume_pos hcons
        split at h
        · rename_i rhs pos3 env3 hc1
          obtain ⟨hc, hd⟩ := ih _ _ _ _ _ _ _ hc1
          obtain ⟨he2, hf⟩ := ih _ _ _ _ _ _ _ h
          exact ⟨by omega, by rw [hf, hd]⟩
        · exact Option.noConfusion h
    case bit_or_loop lhs =>
      split at h
      · exact Option.noConfusion h
      · rename_i pos2 hcons
        obtain ⟨ha, hb⟩ := consume_pos hcons
        injection h with h; injection h with hx hy; injection hy with hp he
        subst hp; subst he; exact ⟨by omega, rfl⟩
      · rename_i pos2 hcons
        obtain ⟨ha, hb⟩ := consume_pos hcons
        split at h
        · rename_i rhs pos3 env3 hc1
          obtain ⟨hc, hd⟩ := ih _ _ _ _ _ _ _ hc1
          obtain ⟨he2, hf⟩ := ih _ _ _ _ _ _ _ h
          exact ⟨by omega, by rw [hf, hd]⟩
        · exact Option.noConfusion h
    case logand_loop lhs =>
      split at h
      · exact Option.noConfusion h
      · rename_i pos2 hcons
        obtain ⟨ha, hb⟩ := consume_pos hcons
        injection h with h; injection h with hx hy; injection hy with hp he
        subst hp; subst he; exact ⟨by omega, rfl⟩
      · rename_i pos2 hcons
        obtain ⟨ha, hb⟩ := consume_pos hcons
        split at h
        · rename_i rhs pos3 env3 hc1
          obtain ⟨hc, hd⟩ := ih _ _ _ _ _ _ _ hc1
          obtain ⟨he2, hf⟩ := ih _ _ _ _ _ _ _ h
          exact ⟨by omega, by rw [hf, hd]⟩
        · exact Option.noConfusion h
    case logor_loop lhs =>
      split at h
      · exact Option.noConfusion h
      · rename_i pos2 hcons
        obtain ⟨ha, hb⟩ := consume_pos hcons
        injection h with h; injection h with hx hy; injection hy with hp he
        subst hp; subst he; exact ⟨by omega, rfl⟩
      · rename_i pos2 hcons
        obtain ⟨ha, hb⟩ := consume_pos hcons
        split at h
        · rename_i rhs pos3 env3 hc1
          obtain ⟨hc, hd⟩ := ih _ _ _ _ _ _ _ hc1
          obtain ⟨he2, hf⟩ := ih _ _ _ _ _ _ _ h
          exact ⟨by omega, by rw [hf, hd]⟩
        · exact Option.noConfusion h
    case conditional =>
      split at h
      · rename_i cond pos2 env2 hc1
        obtain ⟨ha, hb⟩ := ih _ _ _ _ _ _ _ hc1
        split at h
        · exact Option.noConfusion h
        · rename_i pos3 hcons
          obtain ⟨hc, hd⟩ := consume_pos hcons
          injection h with h; injection h with hx hy; injection hy with hp he
          subst hp; subst he; exact ⟨by omega, by rw [hb]⟩
        · rename_i pos3 hcons
          obtain ⟨hc, hd⟩ := consume_pos hcons
          split at h
          · rename_i th pos4 env4 hc2
            obtain ⟨he2, hf⟩ := ih _ _ _ _ _ _ _ hc2
            split at h
            · exact Option.noConfusion h
            · rename_i pos5 hexp
              have hg := expect_pos hexp
              split at h
              · rename_i els pos6 env6 hc3
                obtain ⟨hh, hi2⟩ := ih _ _ _ _ _ _ _ hc3
                injection h with h; injection h with hx hy; injection hy with hp he
                subst hp; subst he; exact ⟨by omega, by rw [hi2, hf, hb]⟩
              · exact Option.noConfusion h
          · exact Option.noConfusion h
      · exact Option.noConfusion h
    case assign =>
      split at h
      · rename_i lhs pos2 env2 hc1
        obtain ⟨ha, hb⟩ := ih _ _ _ _ _ _ _ hc1
        split at h
        · exact Option.noConfusion h
        · rename_i pos3 hcons
          obtain ⟨hc, hd⟩ := consume_pos hcons
          injection h with h; injection h with hx hy; injection hy with hp he
          subst hp; subst he; exact ⟨by omega, by rw [hb]⟩
        · rename_i pos3 hcons
          obtain ⟨hc, hd⟩ := consume_pos hcons
          split at h
          · rename_i rhs pos4 env4 hc2
            obtain ⟨he2, hf⟩ := ih _ _ _ _ _ _ _ hc2
            injection h with h; injection h with hx hy; injection hy with hp he
            subst hp; subst he; exact ⟨by omega, by rw [hf, hb]⟩
          · exact Option.noConfusion h
      · exact Option.noConfusion h
    case expr =>
      split at h
      · rename_i lhs pos2 env2 hc1
        obtain ⟨ha, hb⟩ := ih _ _ _ _ _ _ _ hc1
        split at h
        · exact Option.noConfusion h
        · rename_i pos3 hcons
          obtain ⟨hc, hd⟩ := consume_pos hcons
          injection h with h; injection h with hx hy; injection hy with hp he
          subst hp; subst he; exact ⟨by omega, by rw [hb]⟩
        · rename_i pos3 hcons
          obtain ⟨hc, hd⟩ := consume_pos hcons
          split at h
          · rename_i rhs pos4 env4 hc2
            obtain ⟨he2, hf⟩ := ih _ _ _ _ _ _ _ hc2
            injection h with h; injection h with hx hy; injection hy with hp he
            subst hp; subst he; exact ⟨by omega, by rw [hf, hb]⟩
          · exact Option.noConfusion h
      · exact Option.noConfusion h
    case ctype =>
      split at h
      · exact Option.noConfusion h
      · rename_i t hget
        split at h
        · rename_i ty pos2 env2 hc1
          obtain ⟨ha, hb⟩ := ih _ _ _ _ _ _ _ hc1
          obtain ⟨hc, hd⟩ := ih _ _ _ _ _ _ _ h
          exact ⟨by omega, by rw [hd, hb]⟩
        · exact Option.noConfusion h
    case ptr_loop ty =>
      split at h
      · exact Option.noConfusion h
      · rename_i pos2 hcons
        obtain ⟨ha, hb⟩ := consume_pos hcons
        injection h with h; injection h with hx hy; injection hy with hp he
        subst hp; subst he; exact ⟨by omega, rfl⟩
      · rename_i pos2 hcons
        obtain ⟨ha, hb⟩ := consume_pos hcons
        obtain ⟨hc, hd⟩ := ih _ _ _ _ _ _ _ h
        exact ⟨by omega, hd⟩
    case read_array_loop v =>
      split at h
      · exact Option.noConfusion h
      · rename_i pos2 hcons
        obtain ⟨ha, hb⟩ := consume_pos hcons
        injection h with h; injection h with hx hy; injection hy with hp he
        subst hp; subst he; exact ⟨by omega, rfl⟩
      · rename_i pos2 hcons
        obtain ⟨ha, hb⟩ := consume_pos hcons
        split at h
        · rename_i len pos3 env3 hc1
          obtain ⟨hc, hd⟩ := ih _ _ _ _ _ _ _ hc1
          split at h
          · rename_i n hop
            split at h
            · exact Option.noConfusion h
            · rename_i pos4 hexp
              have he2 := expect_pos hexp
              obtain ⟨hf, hg⟩ := ih _ _ _ _ _ _ _ h
              exact ⟨by omega, by rw [hg, hd]⟩
          · exact Option.noConfusion h
        · exact Option.noConfusion h
    case read_array ty =>
      split at h
      · rename_i v pos2 env2 hc1
        obtain ⟨ha, hb⟩ := ih _ _ _ _ _ _ _ hc1
        injection h with h; injection h with hx hy; injection hy with hp he
        subst hp; subst he; exact ⟨by omega, by rw [hb]⟩
      · exact Option.noConfusion h
    case decl =>
      split at h
      · rename_i ty pos2 env2 hc1
        obtain ⟨ha, hb⟩ := ih _ _ _ _ _ _ _ hc1
        split at h
        · exact Option.noConfusion h
        · rename_i name pos3 hid
          have hc := ident_pos hid
          split at h
          · rename_i ty1 pos4 env4 hc2
            obtain ⟨hd, he2⟩ := ih _ _ _ _ _ _ _ hc2
            split at h
            · exact Option.noConfusion h
            · split at h
              · exact Option.noConfusion h
              · rename_i pos5 hcons1
                obtain ⟨hf, hg⟩ := consume_pos hcons1
                split at h
                · exact Option.noConfusion h
                · rename_i pos6 hcons2
                  obtain ⟨hh, hi2⟩ := consume_pos hcons2
                  split at h
                  · rename_i ia pos7 env7 hc3
                    obtain ⟨hj, hk⟩ := ih _ _ _ _ _ _ _ hc3
                    split at h
                    · exact Option.noConfusion h
                    · rename_i pos8 hexp
                      have hl := expect_pos hexp
                      injection h with h; injection h with hx hy; injection hy with hp he
                      subst hp; subst he; exact ⟨by omega, by rw [hk, he2, hb]⟩
                  · exact Option.noConfusion h
                · rename_i pos6 hcons2
                  obtain ⟨hh, hi2⟩ := consume_pos hcons2
                  split at h
                  · rename_i ini pos7 env7 hc3
                    obtain ⟨hj, hk⟩ := ih _ _ _ _ _ _ _ hc3
                    split at h
                    · exact Option.noConfusion h
                    · rename_i pos8 hexp
                      have hl := expect_pos hexp
                      injection h with h; injection h with hx hy; injection hy with hp he
                      subst hp; subst he; exact ⟨by omega, by rw [hk, he2, hb]⟩
                  · exact Option.noConfusion h
              · rename_i pos5 hcons1
                obtain ⟨hf, hg⟩ := consume_pos hcons1
                split at h
                · exact Option.noConfusion h
                · rename_i pos6 hexp
                  have hh := expect_pos hexp
                  injection h with h; injection h with hx hy; injection hy with hp he
                  subst hp; subst he; exact ⟨by omega, by rw [he2, hb]⟩
          · exact Option.noConfusion h
      · exact Option.noConfusion h
    case array_init_rval id_node =>
      exact ih _ _ _ _ _ _ _ h
    case array_init_loop id_node i acc =>
      split at h
      · rename_i val pos2 env2 hc1
        obtain ⟨ha, hb⟩ := ih _ _ _ _ _ _ _ hc1
        split at h
        · exact Option.noConfusion h
        · rename_i pos3 hcons
          obtain ⟨hc, hd⟩ := consume_pos hcons
          split at h
          · exact Option.noConfusion h
          · rename_i pos4 hexp
            have he2 := expect_pos hexp
            injection h with h; injection h with hx hy; injection hy with hp he
            subst hp; subst he; exact ⟨by omega, by rw [hb]⟩
        · rename_i pos3 hcons
          obtain ⟨hc, hd⟩ := consume_pos hcons
          obtain ⟨he2, hf⟩ := ih _ _ _ _ _ _ _ h
          exact ⟨by omega, by rw [hf, hb]⟩
      · exact Option.noConfusion h
    case param =>
      split at h
      · rename_i ty pos2 env2 hc1
        obtain ⟨ha, hb⟩ := ih _ _ _ _ _ _ _ hc1
        split at h
        · exact Option.noConfusion h
        · rename_i name pos3 hid
          have hc := ident_pos hid
          injection h with h; injection h with hx hy; injection hy with hp he
          subst hp; subst he; exact ⟨by omega, by rw [hb]⟩
      · exact Option.noConfusion h
    case expr_stmt =>
      split at h
      · rename_i e pos2 env2 hc1
        obtain ⟨ha, hb⟩ := ih _ _ _ _ _ _ _ hc1
        split at h
        · exact Option.noConfusion h
        · rename_i pos3 hexp
          have hc := expect_pos hexp
          injection h with h; injection h with hx hy; injection hy with hp he
          subst hp; subst he; exact ⟨by omega, by rw [hb]⟩
      · exact Option.noConfusion h
    case stmt =>
      split at h
      · exact Option.noConfusion h
      · rename_i t hget
        split at h
        · split at h
          · rename_i node pos2 env2 hc1
            obtain ⟨ha, hb⟩ := ih _ _ _ _ _ _ _ hc1
            split at h
            · rename_i name ini sc
              injection h with h; injection h with hx hy; injection hy with hp he
              subst hp; subst he; exact ⟨by omega, hb⟩
            · exact Option.noConfusion h
          · exact Option.noConfusion h
        · exact ih _ _ _ _ _ _ _ h
        · exact ih _ _ _ _ _ _ _ h
        · exact ih _ _ _ _ _ _ _ h
        · split at h
          · exact Option.noConfusion h
          · rename_i pos2 hexp1
            have ha := expect_pos hexp1
            split at h
            · rename_i cond pos3 env3 hc1
              obtain ⟨hb, hc⟩ := ih _ _ _ _ _ _ _ hc1
              split at h
              · exact Option.noConfusion h
              · rename_i pos4 hexp2
                have hd := expect_pos hexp2
                split at h
                · rename_i th pos5 env5 hc2
                  obtain ⟨he2, hf⟩ := ih _ _ _ _ _ _ _ hc2
                  split at h
                  · exact Option.noConfusion h
                  · rename_i pos6 hcons
                    obtain ⟨hg, hh⟩ := consume_pos hcons
                    split at h
                    · rename_i els pos7 env7 hc3
                      obtain ⟨hi2, hj⟩ := ih _ _ _ _ _ _ _ hc3
                      injection h with h; injection h with hx hy; injection hy with hp he
                      subst hp; subst he; exact ⟨by omega, by rw [hj, hf, hc]⟩
                    · exact Option.noConfusion h
                  · rename_i pos6 hcons
                    obtain ⟨hg, hh⟩ := consume_pos hcons
                    injection h with h; injection h with hx hy; injection hy with hp he
                    subst hp; subst he; exact ⟨by omega, by rw [hf, hc]⟩
                · exact Option.noConfusion h
            · exact Option.noConfusion h
        · split at h
          · exact Option.noConfusion h
          · rename_i pos2 hexp1
            have ha := expect_pos hexp1
            split at h
            · exact Option.noConfusion h
            · rename_i t1 hget2
              split at h
              · rename_i ini pos3 env3 hinit
                have hinit2 : pos2 ≤ pos3 ∧ env3.next = env.next := by
                  split at hinit
                  · exact ih _ _ _ _ _ _ _ hinit
                  · exact ih _ _ _ _ _ _ _ hinit
                obtain ⟨hb, hc⟩ := hinit2
                split at h
                · rename_i cond pos4 env4 hc1
                  obtain ⟨hd, he2⟩ := ih _ _ _ _ _ _ _ hc1
                  split at h
                  · exact Option.noConfusion h
                  · rename_i pos5 hexp2
                    have hf := expect_pos hexp2
                    split at h
                    · rename_i ince pos6 env6 hc2
                      obtain ⟨hg, hh⟩ := ih _ _ _ _ _ _ _ hc2
                      split at h
                      · exact Option.noConfusion h
                      · rename_i pos7 hexp3
                        have hi2 := expect_pos hexp3
                        split at h
                        · rename_i body pos8 env8 hc3
                          obtain ⟨hj, hk⟩ := ih _ _ _ _ _ _ _ hc3
                          injection h with h; injection h with hx hy; injection hy with hp he
                          subst hp; subst he
                          exact ⟨by omega, by rw [hk, hh, he2, hc]⟩
                        · exact Option.noConfusion h
                    · exact Option.noConfusion h
                · exact Option.noConfusion h
              · exact Option.noConfusion h
        · split at h
          · exact Option.noConfusion h
          · rename_i pos2 hexp1
            have ha := expect_pos hexp1
            split at h
            · rename_i cond pos3 env3 hc1
              obtain ⟨hb, hc⟩ := ih _ _ _ _ _ _ _ hc1
              split at h
              · exact Option.noConfusion h
              · rename_i pos4 hexp2
                have hd := expect_pos hexp2
                split at h
                · rename_i body pos5 env5 hc2
                  obtain ⟨he2, hf⟩ := ih _ _ _ _ _ _ _ hc2
                  injection h with h; injection h with hx hy; injection hy with hp he
                  subst hp; subst he; exact ⟨by omega, by rw [hf, hc]⟩
                · exact Option.noConfusion h
            · exact Option.noConfusion h
        · split at h
          · rename_i body pos2 env2 hc1
            obtain ⟨ha, hb⟩ := ih _ _ _ _ _ _ _ hc1
            split at h
            · exact Option.noConfusion h
            · rename_i pos3 hexp1
              have hc := expect_pos hexp1
              split at h
              · exact Option.noConfusion h
              · rename_i pos4 hexp2
                have hd := expect_pos hexp2
                split at h
                · rename_i cond pos5 env5 hc2
                  obtain ⟨he2, hf⟩ := ih _ _ _ _ _ _ _ hc2
                  split at h
                  · exact Option.noConfusion h
                  · rename_i pos6 hexp3
                    have hg := expect_pos hexp3
                    split at h
                    · exact Option.noConfusion h
                    · rename_i pos7 hexp4
                      have hh := expect_pos hexp4
                      injection h with h; injection h with hx hy; injection hy with hp he
                      subst hp; subst he; exact ⟨by omega, by rw [hf, hb]⟩
                · exact Option.noConfusion h
          · exact Option.noConfusion h
        · split at h
          · rename_i e pos2 env2 hc1
            obtain ⟨ha, hb⟩ := ih _ _ _ _ _ _ _ hc1
            split at h
            · exact Option.noConfusion h
            · rename_i pos3 hexp
              have hc := expect_pos hexp
              injection h with h; injection h with hx hy; injection hy with hp he
              subst hp; subst he; exact ⟨by omega, by rw [hb]⟩
          · exact Option.noConfusion h
        · split at h
          · rename_i stmts pos2 env2 hc1
            obtain ⟨ha, hb⟩ := ih _ _ _ _ _ _ _ hc1
            injection h with h; injection h with hx hy; injection hy with hp he
            subst hp; subst he; exact ⟨by omega, by rw [hb]⟩
          · exact Option.noConfusion h
        · injection h with h; injection h with hx hy; injection hy with hp he
          subst hp; subst he; exact ⟨by omega, rfl⟩
        · split at h
          · exact ih _ _ _ _ _ _ _ h
          · exact ih _ _ _ _ _ _ _ h
    case stmt_list_loop acc =>
      split at h
      · exact Option.noConfusion h
      · rename_i pos2 hcons
        obtain ⟨ha, hb⟩ := consume_pos hcons
        injection h with h; injection h with hx hy; injection hy with hp he
        subst hp; subst he; exact ⟨by omega, rfl⟩
      · rename_i pos2 hcons
        obtain ⟨ha, hb⟩ := consume_pos hcons
        split at h
        · rename_i s pos3 env3 hc1
          obtain ⟨hc, hd⟩ := ih _ _ _ _ _ _ _ hc1
          obtain ⟨he2, hf⟩ := ih _ _ _ _ _ _ _ h
          exact ⟨by omega, by rw [hf, hd]⟩
        · exact Option.noConfusion h
    case compound_stmt =>
      split at h
      · rename_i stmts pos2 env2 hc1
        obtain ⟨ha, hb⟩ := ih _ _ _ _ _ _ _ hc1
        split at h
        · exact Option.noConfusion h
        · rename_i parent hnext
          have hb2 : env2.next = some env := by rw [hb]; rfl
          have hp2 : some parent = some env := hnext.symm.trans hb2
          injection hp2 with hp3
          injection h with h; injection h with hx hy; injection hy with hp he
          subst hp; subst he
          subst hp3
          exact ⟨ha, rfl⟩
      · exact Option.noConfusion h
    case params_loop acc =>
      split at h
      · exact Option.noConfusion h
      · rename_i pos2 hcons
        obtain ⟨ha, hb⟩ := consume_pos hcons
        injection h with h; injection h with hx hy; injection hy with hp he
        subst hp; subst he; exact ⟨by omega, rfl⟩
      · rename_i pos2 hcons
        obtain ⟨ha, hb⟩ := consume_pos hcons
        split at h
        · rename_i a pos3 env3 hc1
          obtain ⟨hc, hd⟩ := ih _ _ _ _ _ _ _ hc1
          obtain ⟨he2, hf⟩ := ih _ _ _ _ _ _ _ h
          exact ⟨by omega, by rw [hf, hd]⟩
        · exact Option.noConfusion h
    case toplevel =>
      split at h
      · exact Option.noConfusion h
      · rename_i is_ext pos2 hcons0
        obtain ⟨ha, hb⟩ := consume_pos hcons0
        split at h
        · rename_i ty pos3 env3 hc1
          obtain ⟨hc, hd⟩ := ih _ _ _ _ _ _ _ hc1
          split at h
          · exact Option.noConfusion h
          · rename_i t hget
            split at h
            · split at h
              · exact Option.noConfusion h
              · rename_i pos4 hcons1
                obtain ⟨he2, hf⟩ := consume_pos hcons1
                split at h
                · exact Option.noConfusion h
                · rename_i pos5 hcons2
                  obtain ⟨hg, hh⟩ := consume_pos hcons2
                  split at h
                  · exact Option.noConfusion h
                  · rename_i pos6 hexp1
                    have hi2 := expect_pos hexp1
                    split at h
                    · rename_i body pos7 env7 hc2
                      obtain ⟨hj, hk⟩ := ih _ _ _ _ _ _ _ hc2
                      injection h with h; injection h with hx hy; injection hy with hp he
                      subst hp; subst he; exact ⟨by omega, by rw [hk, hd]⟩
                    · exact Option.noConfusion h
                · rename_i pos5 hcons2
                  obtain ⟨hg, hh⟩ := consume_pos hcons2
                  split at h
                  · rename_i a pos6 env6 hc2
                    obtain ⟨hi2, hj⟩ := ih _ _ _ _ _ _ _ hc2
                    split at h
                    · rename_i args pos7 env7 hc3
                      obtain ⟨hk, hl⟩ := ih _ _ _ _ _ _ _ hc3
                      split at h
                      · exact Option.noConfusion h
                      · rename_i pos8 hexp1
                        have hm := expect_pos hexp1
                        split at h
                        · exact Option.noConfusion h
                        · rename_i pos9 hexp2
                          have hn := expect_pos hexp2
                          split at h
                          · rename_i body pos10 env10 hc4
                            obtain ⟨ho, hp4⟩ := ih _ _ _ _ _ _ _ hc4
                            injection h with h; injection h with hx hy
                            injection hy with hp he
                            subst hp; subst he
                            exact ⟨by omega, by rw [hp4, hl, hj, hd]⟩
                          · exact Option.noConfusion h
                    · exact Option.noConfusion h
                  · exact Option.noConfusion h
              · rename_i pos4 hcons1
                obtain ⟨he2, hf⟩ := consume_pos hcons1
                split at h
                · rename_i ty2 pos5 env5 hc2
                  obtain ⟨hg, hh⟩ := ih _ _ _ _ _ _ _ hc2
                  split at h
                  · exact Option.noConfusion h
                  · rename_i pos6 hexp
                    have hi2 := expect_pos hexp
                    split at h
                    · injection h with h; injection h with hx hy; injection hy with hp he
                      subst hp; subst he; exact ⟨by omega, by rw [hh, hd]⟩
                    · injection h with h; injection h with hx hy; injection hy with hp he
                      subst hp; subst he; exact ⟨by omega, by rw [hh, hd]⟩
                · exact Option.noConfusion h
            · exact Option.noConfusion h
        · exact Option.noConfusion h
    case toplevel_loop acc =>
      split at h
      · injection h with h; injection h with hx hy; injection hy with hp he
        subst hp; subst he; exact ⟨le_refl _, rfl⟩
      · split at h
        · rename_i n pos2 env2 hc1
          obtain ⟨ha, hb⟩ := ih _ _ _ _ _ _ _ hc1
          obtain ⟨hc, hd⟩ := ih _ _ _ _ _ _ _ h
          exact ⟨by omega, by rw [hd, hb]⟩
        · exact Option.noConfusion h
    all_goals
      split at h
      · rename_i lhs pos2 env2 hc1
        obtain ⟨ha, hb⟩ := ih _ _ _ _ _ _ _ hc1
        obtain ⟨hc, hd⟩ := ih _ _ _ _ _ _ _ h
        exact ⟨by omega, by rw [hd, hb]⟩
      · exact Option.noConfusion h

/-- fn compound_stmt restores exactly the environment it was entered with:
the popped frame is the parent recorded at the push, and nothing run inside
the block can change that parent pointer. -/
theorem run_compound_stmt_env {fuel : Nat} {toks : List Token} {pos : Nat}
    {env : Env} {r : PRes} {p1 : Nat} {e1 : Env}
    (h : run fuel .compound_stmt toks pos env = some (r, p1, e1)) : e1 = env := by
  cases fuel with
  | zero => exact Option.noConfusion h
  | succ fuel =>
    simp only [run] at h
    split at h
    · rename_i stmts pos2 env2 hc1
      obtain ⟨ha, hb⟩ := run_mono _ _ _ _ _ _ _ _ hc1
      split at h
      · exact Option.noConfusion h
      · rename_i parent hnext
        have hb2 : env2.next = some env := by rw [hb]; rfl
        have hp2 : some parent = some env := hnext.symm.trans hb2
        injection hp2 with hp3
        injection h with h; injection h with hx hy; injection hy with hp he
        subst he; exact hp3
    · exact Option.noConfusion h

/-- A consume whose token kind differs from the looked-at token reports
false and leaves the cursor in place. -/
theorem consume_of_ne (ty : TokenType) {toks : List Token} {pos : Nat}
    {t : Token} (h : toks[pos]? = some t) (hne : ¬ t.ty = ty) :
    consume ty toks pos = some (false, pos) := by
  simp [consume, h, hne]

/-- An expect whose token kind matches the looked-at token advances by one. -/
theorem expect_of_eq (ty : TokenType) {toks : List Token} {pos : Nat}
    {t : Token} (h : toks[pos]? = some t) (he : t.ty = ty) :
    expect ty toks pos = some (pos + 1) := by
  simp [expect, h, he]

/-- Every level of the expression ladder aborts on a semicolon lookahead:
the primary level rejects it and the failure propagates up unchanged,
because every operator test leaves the cursor on the semicolon. -/
theorem run_ladder_at_semicolon : ∀ (fuel : Nat) (toks : List Token) (pos : Nat)
    (env : Env), toks[pos]? = some (Token.mk .Semicolon) →
    run fuel .primary toks pos env = none ∧
    run fuel .postfix_expr toks pos env = none ∧
    run fuel .unary toks pos env = none ∧
    run fuel .mul toks pos env = none ∧
    run fuel .add toks pos env = none ∧
    run fuel .shift toks pos env = none ∧
    run fuel .relational toks pos env = none ∧
    run fuel .equality toks pos env = none ∧
    run fuel .bit_and toks pos env = none ∧
    run fuel .bit_xor toks pos env = none ∧
    run fuel .bit_or toks pos env = none ∧
    run fuel .logand toks pos env = none ∧
    run fuel .logor toks pos env = none ∧
    run fuel .conditional toks pos env = none ∧
    run fuel .assign toks pos env = none ∧
    run fuel .expr toks pos env = none := by
  intro fuel
  induction fuel with
  | zero =>
    intro toks pos env hget
    exact ⟨rfl, rfl, rfl, rfl, rfl, rfl, rfl, rfl, rfl, rfl, rfl, rfl, rfl, rfl,
      rfl, rfl⟩
  | succ fuel ih =>
    intro toks pos env hget
    obtain ⟨h1, h2, h3, h4, h5, h6, h7, h8, h9, h10, h11, h12, h13, h14, h15, h16⟩ :=
      ih toks pos env hget
    refine ⟨?_, ?_, ?_, ?_, ?_, ?_, ?_, ?_, ?_, ?_, ?_, ?_, ?_, ?_, ?_, ?_⟩
    · simp only [run, hget]
    · simp only [run, h1]
    · simp only [run,
        consume_of_ne .Minus hget (by decide),
        consume_of_ne .Mul hget (by decide),
        consume_of_ne .And hget (by decide),
        consume_of_ne .Exclamation hget (by decide),
        consume_of_ne .Sizeof hget (by decide),
        consume_of_ne .Alignof hget (by decide), h2]
    · simp only [run, h3]
    · simp only [run, h4]
    · simp only [run, h5]
    · simp only [run, h6]
    · simp only [run, h7]
    · simp only [run, h8]
    · simp only [run, h9]
    · simp only [run, h10]
    · simp only [run, h11]
    · simp only [run, h12]
    · simp only [run, h13]
    · simp only [run, h14]
    · simp only [run, h15]

/-- fn expr_stmt also aborts on a semicolon lookahead (its expression is
mandatory). -/
theorem run_expr_stmt_at_semicolon (fuel : Nat) (toks : List Token) (pos : Nat)
    (env : Env) (hget : toks[pos]? = some (Token.mk .Semicolon)) :
    run fuel .expr_stmt toks pos env = none := by
  cases fuel with
  | zero => rfl
  | succ fuel =>
    have h16 := (run_ladder_at_semicolon fuel toks pos env hget).2.2.2.2.2.2.2.2.2.2.2.2.2.2.2
    simp only [run, h16]

/-- A for statement whose init clause is empty (an immediate semicolon after
the opening parenthesis) aborts: the init is parsed as a mandatory
declaration or expression statement, and both reject the semicolon. -/
theorem run_stmt_for_empty_init (fuel : Nat) (toks : List Token) (pos : Nat)
    (env : Env) (hFor : toks[pos]? = some (Token.mk .For))
    (hLP : toks[pos + 1]? = some (Token.mk .LeftParen))
    (hSemi : toks[pos + 1 + 1]? = some (Token.mk .Semicolon)) :
    run fuel .stmt toks pos env = none := by
  cases fuel with
  | zero => rfl
  | succ fuel =>
    have hes := run_expr_stmt_at_semicolon fuel toks (pos + 1 + 1) env hSemi
    have hex := expect_of_eq .LeftParen hLP rfl
    have hty : is_typename (Token.mk .Semicolon) env = false := rfl
    simp only [run, hFor, hex, hSemi, hty, Bool.false_eq_true, if_false, hes]

/-- The relational loop only ever builds nodes tagged with the two
less-than operators: its result is either the untouched left-hand side or a
binary node tagged LeftAngleBracket or LE. -/
theorem run_relational_loop_shape : ∀ (fuel : Nat) (lhs : Node)
    (toks : List Token) (pos : Nat) (env : Env) (r : PRes) (p1 : Nat) (e1 : Env),
    run fuel (.relational_loop lhs) toks pos env = some (r, p1, e1) →
    r = .node lhs ∨ ∃ l rr, r = .node (Node.new_binop .LeftAngleBracket l rr) ∨
      r = .node (Node.new_binop .LE l rr) := by
  intro fuel
  induction fuel with
  | zero => intro lhs toks pos env r p1 e1 h; exact Option.noConfusion h
  | succ fuel ih =>
    intro lhs toks pos env r p1 e1 h
    simp only [run] at h
    split at h
    · exact Option.noConfusion h
    · rename_i pos2 hcons
      split at h
      · rename_i rhs pos3 env3 hc1
        rcases ih _ _ _ _ _ _ _ h with h2 | h2
        · exact Or.inr ⟨lhs, rhs, Or.inl h2⟩
        · exact Or.inr h2
      · exact Option.noConfusion h
    · rename_i pos2 hcons
      split at h
      · exact Option.noConfusion h
      · rename_i pos3 hcons2
        split at h
        · rename_i rhs pos4 env4 hc1
          rcases ih _ _ _ _ _ _ _ h with h2 | h2
          · exact Or.inr ⟨rhs, lhs, Or.inl h2⟩
          · exact Or.inr h2
        · exact Option.noConfusion h
      · rename_i pos3 hcons2
        split at h
        · exact Option.noConfusion h
        · rename_i pos4 hcons3
          split at h
          · rename_i rhs pos5 env5 hc1
            rcases ih _ _ _ _ _ _ _ h with h2 | h2
            · exact Or.inr ⟨lhs, rhs, Or.inr h2⟩
            · exact Or.inr h2
          · exact Option.noConfusion h
        · rename_i pos4 hcons3
          split at h
          · exact Option.noConfusion h
          · rename_i pos5 hcons4
            split at h
            · rename_i rhs pos6 env6 hc1
              rcases ih _ _ _ _ _ _ _ h with h2 | h2
              · exact Or.inr ⟨rhs, lhs, Or.inr h2⟩
              · exact Or.inr h2
            · exact Option.noConfusion h
          · rename_i pos5 hcons4
            injection h with h; injection h with hx hy
            subst hx; exact Or.inl rfl

/-- The relational level returns either the node produced by the shift
level, untouched, or a node it folded itself, which is always tagged with
one of the two mirrored less-than operators. -/
theorem relational_shape {fuel : Nat} {toks : List Token} {pos : Nat}
    {env : Env} {n : Node} {p1 : Nat} {e1 : Env}
    (h : relational (fuel + 1) toks pos env = some (n, p1, e1)) :
    (∃ p2 e2, shift fuel toks pos env = some (n, p2, e2)) ∨
      ∃ l rr, n.op = .BinOp .LeftAngleBracket l rr ∨ n.op = .BinOp .LE l rr := by
  rw [relational_eq_iff] at h
  simp only [run] at h
  split at h
  · rename_i lhs pos2 env2 hc1
    rcases run_relational_loop_shape _ _ _ _ _ _ _ _ h with h2 | ⟨l, rr, h2 | h2⟩
    · injection h2 with h3
      subst h3
      exact Or.inl ⟨pos2, env2, shift_eq_iff.mpr hc1⟩
    · injection h2 with h3
      refine Or.inr ⟨l, rr, Or.inl ?_⟩
      rw [h3]; rfl
    · injection h2 with h3
      refine Or.inr ⟨l, rr, Or.inr ?_⟩
      rw [h3]; rfl
  · exact Option.noConfusion h

/-- The root environment the parser starts with (Env::new(None)). -/
def root_env : Env := Env.mk [] [] none

/-- C1: the spec claims that a typedef bound in an enclosing frame but not
in the innermost one is recognized by is_typename and resolved by
read_type, and that struct-tag lookup searches outward through the chain.
The code consults only the innermost frame: at the failing input (an
environment whose parent binds typedef T, or tag S, while the innermost
frame is empty) is_typename answers false, read_type reports not-a-type
with the cursor restored, and the tag lookup misses the outer S and builds
an empty struct type instead of reusing its members. -/
theorem C1_innermost_frame_only :
    is_typename (Token.mk (.Ident "T"))
      (Env.mk [] [] (some (Env.mk [] [("T", Ty.int_ty)] none))) = false ∧
    read_type 64 (Token.mk (.Ident "T"))
      [Token.mk (.Ident "T"), Token.mk (.Ident "y")] 0
      (Env.mk [] [] (some (Env.mk [] [("T", Ty.int_ty)] none))) =
      some (none, 0, Env.mk [] [] (some (Env.mk [] [("T", Ty.int_ty)] none))) ∧
    read_type 64 (Token.mk .Struct)
      [Token.mk .Struct, Token.mk (.Ident "S"), Token.mk .Semicolon] 0
      (Env.mk [] [] (some (Env.mk
        [("S", [Node.mk ( NodeType.Vardef "m" none (.Local 0)) Ty.int_ty])] [] none))) =
      some (some (Ty.mk (.Struct []) 0 0), 2,
        Env.mk [] [] (some (Env.mk
          [("S", [Node.mk ( NodeType.Vardef "m" none (.Local 0)) Ty.int_ty])] [] none))) :=
  ⟨rfl, rfl, rfl⟩

/-- C2 counterexample: the claim says logical-and folds left-associatively,
so parsing 1 AND 2 AND 3 would give BinOp(and, BinOp(and, 1, 2), 3); the
code folds it to the right, so that result is refuted. -/
theorem C2_counterexample :
    ¬ (logand 64 [Token.mk (.Num 1), Token.mk .Logand, Token.mk (.Num 2),
        Token.mk .Logand, Token.mk (.Num 3), Token.mk .Semicolon] 0 root_env =
      some (Node.new_binop .Logand
        (Node.new_binop .Logand (Node.mk (.Num 1) Ty.int_ty)
          (Node.mk (.Num 2) Ty.int_ty))
        (Node.mk (.Num 3) Ty.int_ty), 5, root_env)) := by
  intro h
  have h2 : some (Node.new_binop .Logand (Node.mk (.Num 1) Ty.int_ty)
        (Node.new_binop .Logand (Node.mk (.Num 2) Ty.int_ty)
          (Node.mk (.Num 3) Ty.int_ty)), 5, root_env) =
      some (Node.new_binop .Logand
        (Node.new_binop .Logand (Node.mk (.Num 1) Ty.int_ty)
          (Node.mk (.Num 2) Ty.int_ty))
        (Node.mk (.Num 3) Ty.int_ty), 5, root_env) := by rw [← h]; rfl
  simp [Node.new_binop, Node.new] at h2

/-- C2 amended: each precedence level folds left-associatively except
conditional, logical-and and comma, which associate to the right, and
assignment, which folds exactly one node whose right operand is a
conditional-level expression, so in a = b = c the second equal sign is
left unconsumed (the cursor stops on it, at index 3). -/
theorem C2_associativity_amended (a b c d e : Int) :
    add 64 [Token.mk (.Num a), Token.mk .Plus, Token.mk (.Num b), Token.mk .Plus,
        Token.mk (.Num c), Token.mk .Semicolon] 0 root_env =
      some (Node.new_binop .Plus
        (Node.new_binop .Plus (Node.mk (.Num a) Ty.int_ty) (Node.mk (.Num b) Ty.int_ty))
        (Node.mk (.Num c) Ty.int_ty), 5, root_env) ∧
    logor 64 [Token.mk (.Num a), Token.mk .Logor, Token.mk (.Num b), Token.mk .Logor,
        Token.mk (.Num c), Token.mk .Semicolon] 0 root_env =
      some (Node.new_binop .Logor
        (Node.new_binop .Logor (Node.mk (.Num a) Ty.int_ty) (Node.mk (.Num b) Ty.int_ty))
        (Node.mk (.Num c) Ty.int_ty), 5, root_env) ∧
    logand 64 [Token.mk (.Num a), Token.mk .Logand, Token.mk (.Num b), Token.mk .Logand,
        Token.mk (.Num c), Token.mk .Semicolon] 0 root_env =
      some (Node.new_binop .Logand (Node.mk (.Num a) Ty.int_ty)
        (Node.new_binop .Logand (Node.mk (.Num b) Ty.int_ty) (Node.mk (.Num c) Ty.int_ty)),
        5, root_env) ∧
    expr 64 [Token.mk (.Num a), Token.mk .Comma, Token.mk (.Num b), Token.mk .Comma,
        Token.mk (.Num c), Token.mk .Semicolon] 0 root_env =
      some (Node.new_binop .Comma (Node.mk (.Num a) Ty.int_ty)
        (Node.new_binop .Comma (Node.mk (.Num b) Ty.int_ty) (Node.mk (.Num c) Ty.int_ty)),
        5, root_env) ∧
    conditional 64 [Token.mk (.Num a), Token.mk .Question, Token.mk (.Num b),
        Token.mk .Colon, Token.mk (.Num c), Token.mk .Question, Token.mk (.Num d),
        Token.mk .Colon, Token.mk (.Num e), Token.mk .Semicolon] 0 root_env =
      some (Node.new (.Ternary (Node.mk (.Num a) Ty.int_ty) (Node.mk (.Num b) Ty.int_ty)
        (Node.new (.Ternary (Node.mk (.Num c) Ty.int_ty) (Node.mk (.Num d) Ty.int_ty)
          (Node.mk (.Num e) Ty.int_ty)))), 9, root_env) ∧
    assign 64 [Token.mk (.Num a), Token.mk .Equal, Token.mk (.Num b), Token.mk .Equal,
        Token.mk (.Num c), Token.mk .Semicolon] 0 root_env =
      some (Node.new_binop .Equal (Node.mk (.Num a) Ty.int_ty) (Node.mk (.Num b) Ty.int_ty),
        3, root_env) :=
  ⟨rfl, rfl, rfl, rfl, rfl, rfl⟩

/-- C3: parsing a greater-than at the relational level produces exactly the
tree of the mirrored less-than with the operands swapped (shown for numeric
and identifier operands, with the explicit swapped tree), and the
relational level never emits a node tagged RightAngleBracket or GE: its
result is either the shift result untouched or a fold tagged
LeftAngleBracket or LE. -/
theorem C3_relational_swap_normalized :
    (∀ (a b : Int) (env : Env),
      relational 64 [Token.mk (.Num a), Token.mk .RightAngleBracket,
          Token.mk (.Num b), Token.mk .Semicolon] 0 env =
        relational 64 [Token.mk (.Num b), Token.mk .LeftAngleBracket,
          Token.mk (.Num a), Token.mk .Semicolon] 0 env) ∧
    (∀ (a b : Int) (env : Env),
      relational 64 [Token.mk (.Num a), Token.mk .GE, Token.mk (.Num b),
          Token.mk .Semicolon] 0 env =
        relational 64 [Token.mk (.Num b), Token.mk .LE, Token.mk (.Num a),
          Token.mk .Semicolon] 0 env) ∧
    (∀ (s1 s2 : String) (env : Env),
      relational 64 [Token.mk (.Ident s1), Token.mk .RightAngleBracket,
          Token.mk (.Ident s2), Token.mk .Semicolon] 0 env =
        relational 64 [Token.mk (.Ident s2), Token.mk .LeftAngleBracket,
          Token.mk (.Ident s1), Token.mk .Semicolon] 0 env) ∧
    (∀ (a b : Int) (env : Env),
      relational 64 [Token.mk (.Num a), Token.mk .RightAngleBracket,
          Token.mk (.Num b), Token.mk .Semicolon] 0 env =
        some (Node.new_binop .LeftAngleBracket (Node.mk (.Num b) Ty.int_ty)
          (Node.mk (.Num a) Ty.int_ty), 3, env)) ∧
    (∀ (fuel : Nat) (toks : List Token) (pos : Nat) (env : Env) (n : Node)
        (p1 : Nat) (e1 : Env),
      relational (fuel + 1) toks pos env = some (n, p1, e1) →
        (∃ p2 e2, shift fuel toks pos env = some (n, p2, e2)) ∨
          ∃ l rr, n.op = .BinOp .LeftAngleBracket l rr ∨ n.op = .BinOp .LE l rr) :=
  ⟨fun _ _ _ => rfl, fun _ _ _ => rfl, fun _ _ _ => rfl, fun _ _ _ => rfl,
    fun _ _ _ _ _ _ _ h => relational_shape h⟩

/-- C3 witness: the relational-shape component instantiated at the concrete
parse of 1 greater-than 2, whose hypothesis is discharged by computation. -/
theorem C3_witness :
    (∃ p2 e2, shift 63 [Token.mk (.Num 1), Token.mk .RightAngleBracket,
        Token.mk (.Num 2), Token.mk .Semicolon] 0 root_env =
      some (Node.new_binop .LeftAngleBracket (Node.mk (.Num 2) Ty.int_ty)
        (Node.mk (.Num 1) Ty.int_ty), p2, e2)) ∨
    ∃ l rr, (Node.new_binop .LeftAngleBracket (Node.mk (.Num 2) Ty.int_ty)
        (Node.mk (.Num 1) Ty.int_ty)).op = .BinOp .LeftAngleBracket l rr ∨
      (Node.new_binop .LeftAngleBracket (Node.mk (.Num 2) Ty.int_ty)
        (Node.mk (.Num 1) Ty.int_ty)).op = .BinOp .LE l rr :=
  C3_relational_swap_normalized.2.2.2.2 63
    [Token.mk (.Num 1), Token.mk .RightAngleBracket, Token.mk (.Num 2),
      Token.mk .Semicolon] 0 root_env
    (Node.new_binop .LeftAngleBracket (Node.mk (.Num 2) Ty.int_ty)
      (Node.mk (.Num 1) Ty.int_ty)) 3 root_env rfl

/-- C4: new_struct on three members of size and alignment (4,4), (1,1),
(8,8), in that order, assigns offsets 0, 4 and 8, total size 16 and
alignment 8, whatever the member names are. -/
theorem C4_struct_layout (s1 s2 s3 : String) :
    Ty.new_struct
      [Node.mk (.Vardef s1 none (.Local 0)) Ty.int_ty,
       Node.mk (.Vardef s2 none (.Local 0)) Ty.char_ty,
       Node.mk (.Vardef s3 none (.Local 0)) (Ty.ptr_to Ty.int_ty)] =
    some (Ty.mk (.Struct
      [Node.mk (.Vardef s1 none (.Local 0)) Ty.int_ty,
       Node.mk (.Vardef s2 none (.Local 4)) Ty.char_ty,
       Node.mk (.Vardef s3 none (.Local 8)) (Ty.ptr_to Ty.int_ty)]) 16 8) := rfl

/-- C5: the spec claims that a struct reference with a tag and no member
list must fail with an incomplete-type condition whenever no registered tag
with non-empty members exists; at the failing input (tag Foo never
registered) the code succeeds and returns an empty struct type instead.
The abort only fires when the tag is registered with an empty member list,
as the second conjunct shows. -/
theorem C5_unregistered_tag_no_error :
    read_type 64 (Token.mk .Struct)
      [Token.mk .Struct, Token.mk (.Ident "Foo"), Token.mk .Semicolon] 0
      (Env.mk [] [] none) =
      some (some (Ty.mk (.Struct []) 0 0), 2, Env.mk [] [] none) ∧
    read_type 64 (Token.mk .Struct)
      [Token.mk .Struct, Token.mk (.Ident "Foo"), Token.mk .Semicolon] 0
      (Env.mk [("Foo", [])] [] none) = none :=
  ⟨rfl, rfl⟩

/-- Token list for the C6 declaration int a[3] = {1,2,3}; -/
def toks_c6 : List Token :=
  [Token.mk .Int, Token.mk (.Ident "a"), Token.mk .LeftBracket, Token.mk (.Num 3),
   Token.mk .RightBracket, Token.mk .Equal, Token.mk .LeftBrace, Token.mk (.Num 1),
   Token.mk .Comma, Token.mk (.Num 2), Token.mk .Comma, Token.mk (.Num 3),
   Token.mk .RightBrace, Token.mk .Semicolon]

/-- One desugared assignment statement of the C6 array initializer. -/
def c6_init_stmt (i v : Int) : Node :=
  Node.new (.ExprStmt (Node.new_binop .Equal
    (Node.new (.Deref (Node.new_binop .Plus (Node.new (.Ident "a"))
      (Node.new (.Num i)))))
    (Node.mk (.Num v) Ty.int_ty)))

/-- C6 counterexample: the claim says the declaration parses to one
synthetic multi-statement node containing the bare definition of a followed
directly by three expression statements, which would make the outer node a
VecStmt with four children; the code never returns such a node for this
input (its outer VecStmt has two children). -/
theorem C6_counterexample :
    ¬ ∃ (vd e1 e2 e3 : Node) (ty : Ty) (p : Nat) (en : Env),
      decl 64 toks_c6 0 root_env =
        some (Node.mk (.VecStmt [vd, e1, e2, e3]) ty, p, en) := by
  rintro ⟨vd, e1, e2, e3, ty, p, en, h⟩
  have h0 : decl 64 toks_c6 0 root_env =
      some (Node.new (.VecStmt
        [Node.mk ( NodeType.Vardef "a" none (.Local 0)) (Ty.ary_of Ty.int_ty 3),
         Node.new (.VecStmt [c6_init_stmt 0 1, c6_init_stmt 1 2, c6_init_stmt 2 3])]),
        14, root_env) := rfl
  rw [h0] at h
  simp [Node.new] at h

/-- C6 amended: the declaration int a[3] = {1,2,3}; parses to a synthetic
multi-statement node whose two children are the bare definition of a
(carrying the array type, no initializer) and a nested multi-statement node
holding exactly the three expression statements assigning through
dereferenced a+0, a+1, a+2 with indices increasing from 0. -/
theorem C6_array_init_nested :
    decl 64 toks_c6 0 root_env =
      some (Node.new (.VecStmt
        [Node.mk ( NodeType.Vardef "a" none (.Local 0)) (Ty.ary_of Ty.int_ty 3),
         Node.new (.VecStmt [c6_init_stmt 0 1, c6_init_stmt 1 2, c6_init_stmt 2 3])]),
        14, root_env) := rfl

/-- Token list for while (1) ; -/
def toks_c7w : List Token :=
  [Token.mk .While, Token.mk .LeftParen, Token.mk (.Num 1), Token.mk .RightParen,
   Token.mk .Semicolon]

/-- Token list for for (;1;) ; -/
def toks_c7f : List Token :=
  [Token.mk .For, Token.mk .LeftParen, Token.mk .Semicolon, Token.mk (.Num 1),
   Token.mk .Semicolon, Token.mk .RightParen, Token.mk .Semicolon]

/-- C7 counterexample: at condition 1 and the null statement, parsing the
while spelling and parsing the for spelling with empty clauses do not
produce identical trees: the while parse yields a For node and the for
parse aborts. -/
theorem C7_counterexample :
    ¬ (stmt 64 toks_c7w 0 root_env = stmt 64 toks_c7f 0 root_env) := by
  intro h
  rw [show stmt 64 toks_c7w 0 root_env =
      some (Node.new (.For (Node.new .Null) (Node.mk (.Num 1) Ty.int_ty)
        (Node.new .Null) (Node.new .Null)), 5, root_env) from rfl] at h
  rw [show stmt 64 toks_c7f 0 root_env = none from rfl] at h
  exact Option.noConfusion h

/-- C7 amended: a while statement parses to a For node with null init and
null increment, with the condition and body the expression and statement
parses; but the spelling for (;cond;) body never parses, because the init
clause of a for is a mandatory declaration or expression statement and both
reject an immediate semicolon. -/
theorem C7_while_for_amended :
    (∀ (fuel : Nat) (toks : List Token) (pos : Nat) (env : Env) (p1 : Nat)
        (cond : Node) (p2 : Nat) (e2 : Env) (p3 : Nat) (body : Node) (p4 : Nat)
        (e4 : Env),
      toks[pos]? = some (Token.mk .While) →
      expect .LeftParen toks (pos + 1) = some p1 →
      expr fuel toks p1 env = some (cond, p2, e2) →
      expect .RightParen toks p2 = some p3 →
      stmt fuel toks p3 e2 = some (body, p4, e4) →
      stmt (fuel + 1) toks pos env =
        some (Node.new (.For (Node.new .Null) cond (Node.new .Null) body), p4, e4)) ∧
    (∀ (fuel : Nat) (toks : List Token) (pos : Nat) (env : Env),
      toks[pos]? = some (Token.mk .For) →
      toks[pos + 1]? = some (Token.mk .LeftParen) →
      toks[pos + 1 + 1]? = some (Token.mk .Semicolon) →
      stmt fuel toks pos env = none) := by
  constructor
  · intro fuel toks pos env p1 cond p2 e2 p3 body p4 e4 h1 h2 h3 h4 h5
    rw [stmt_eq_iff]
    simp only [run, h1, h2, expr_eq_iff.mp h3, h4, stmt_eq_iff.mp h5]
  · intro fuel toks pos env h1 h2 h3
    unfold stmt
    rw [run_stmt_for_empty_init fuel toks pos env h1 h2 h3]

/-- C7 witness: the amended statement instantiated at while (1) ; and at
for (;1;) ;, with every hypothesis discharged by computation. -/
theorem C7_witness :
    stmt (63 + 1) toks_c7w 0 root_env =
      some (Node.new (.For (Node.new .Null) (Node.mk (.Num 1) Ty.int_ty)
        (Node.new .Null) (Node.new .Null)), 5, root_env) ∧
    stmt 64 toks_c7f 0 root_env = none :=
  ⟨C7_while_for_amended.1 63 toks_c7w 0 root_env 2 (Node.mk (.Num 1) Ty.int_ty) 3
      root_env 4 (Node.new .Null) 5 root_env rfl rfl rfl rfl rfl,
    C7_while_for_amended.2 64 toks_c7f 0 root_env rfl rfl rfl⟩

/-- Token list for the statement-level block containing a typedef:
left brace, typedef int x ;, right brace. -/
def toks_c8 : List Token :=
  [Token.mk .LeftBrace, Token.mk .Typedef, Token.mk .Int, Token.mk (.Ident "x"),
   Token.mk .Semicolon, Token.mk .RightBrace]

/-- Token body of a compound_stmt block containing a typedef (the opening
brace has already been consumed by the caller): typedef int x ;, right
brace. -/
def toks_c8cs : List Token :=
  [Token.mk .Typedef, Token.mk .Int, Token.mk (.Ident "x"), Token.mk .Semicolon,
   Token.mk .RightBrace]

/-- C8 counterexample: the claim says a typedef registered inside a
brace-delimited block is not visible after the closing brace; parsing a
statement-level block that typedefs x leaves x registered in the returned
environment, where is_typename still classifies it as a type name. -/
theorem C8_counterexample :
    stmt 64 toks_c8 0 root_env = some (Node.new (.CompStmt [Node.new .Null]), 6,
      Env.mk [] [("x", Ty.int_ty)] none) ∧
    ¬ (is_typename (Token.mk (.Ident "x")) (Env.mk [] [("x", Ty.int_ty)] none)
        = false) :=
  ⟨rfl, by decide⟩

/-- C8 amended: only the blocks parsed by compound_stmt (a function body or
a statement-expression body) scope their typedefs: compound_stmt always
returns exactly the environment it was entered with, so a typedef made
inside is gone afterward, as the concrete block shows; but a
statement-level brace block is parsed without pushing or popping a frame,
so its typedefs persist (the counterexample). -/
theorem C8_compound_scope_amended :
    (∀ (fuel : Nat) (toks : List Token) (pos : Nat) (env : Env) (n : Node)
        (p1 : Nat) (e1 : Env),
      compound_stmt fuel toks pos env = some (n, p1, e1) → e1 = env) ∧
    compound_stmt 64 toks_c8cs 0 root_env =
      some (Node.new (.CompStmt [Node.new .Null]), 5, root_env) ∧
    is_typename (Token.mk (.Ident "x")) root_env = false := by
  refine ⟨?_, rfl, rfl⟩
  intro fuel toks pos env n p1 e1 h
  exact run_compound_stmt_env (compound_stmt_eq_iff.mp h)

/-- C8 witness: the restoration component instantiated at the concrete
typedef block, whose success hypothesis is discharged by computation. -/
theorem C8_witness : root_env = root_env :=
  C8_compound_scope_amended.1 64 toks_c8cs 0 root_env
    (Node.new (.CompStmt [Node.new .Null])) 5 root_env rfl

/-- C9: whenever the token at the cursor is a string literal, primary
returns a Str node whose type is already the array-of-char whose element
count is the byte length of the literal data, advancing the cursor by one
and leaving the environment unchanged. -/
theorem C9_string_literal_eager_type :
    ∀ (fuel : Nat) (toks : List Token) (pos : Nat) (env : Env)
      (data : List Nat) (len : Nat),
    toks[pos]? = some (Token.mk (.Str data len)) →
    primary (fuel + 1) toks pos env =
      some (Node.mk (.Str data len) (Ty.ary_of Ty.char_ty data.length),
        pos + 1, env) := by
  intro fuel toks pos env data len hget
  rw [primary_eq_iff]
  simp only [run, hget]

/-- C9 witness: the string-literal rule instantiated at a concrete
two-byte literal whose recorded length field is three. -/
theorem C9_witness :
    primary (63 + 1) [Token.mk (.Str [72, 105] 3)] 0 root_env =
      some (Node.mk (.Str [72, 105] 3)
        (Ty.ary_of Ty.char_ty ([72, 105] : List Nat).length), 0 + 1, root_env) :=
  C9_string_literal_eager_type 63 [Token.mk (.Str [72, 105] 3)] 0 root_env
    [72, 105] 3 rfl

/-- C10: the cursor only moves forward: every parsing operation of the
source (expect, consume, read_type, every recursive-descent routine and
every loop of one, all of which run through run) returns, when it
succeeds, with a cursor position at least its entry position. -/
theorem C10_cursor_monotone :
    (∀ (ty : TokenType) (toks : List Token) (pos pos1 : Nat),
      expect ty toks pos = some pos1 → pos ≤ pos1) ∧
    (∀ (ty : TokenType) (toks : List Token) (pos : Nat) (b : Bool) (pos1 : Nat),
      consume ty toks pos = some (b, pos1) → pos ≤ pos1) ∧
    (∀ (fuel : Nat) (fn : PFn) (toks : List Token) (pos : Nat) (env : Env)
        (r : PRes) (pos1 : Nat) (env1 : Env),
      run fuel fn toks pos env = some (r, pos1, env1) → pos ≤ pos1) ∧
    (∀ (fuel : Nat) (t : Token) (toks : List Token) (pos : Nat) (env : Env)
        (res : Option Ty) (pos1 : Nat) (env1 : Env),
      read_type fuel t toks pos env = some (res, pos1, env1) → pos ≤ pos1) ∧
    (∀ (fuel : Nat) (toks : List Token) (pos : Nat) (env : Env) (ty : Ty)
        (pos1 : Nat) (env1 : Env),
      ctype fuel toks pos env = some (ty, pos1, env1) → pos ≤ pos1) ∧
    (∀ (fuel : Nat) (ty : Ty) (toks : List Token) (pos : Nat) (env : Env)
        (ty1 : Ty) (pos1 : Nat) (env1 : Env),
      read_array fuel ty toks pos env = some (ty1, pos1, env1) → pos ≤ pos1) ∧
    (∀ (fuel : Nat) (toks : List Token) (pos : Nat) (env : Env) (id_node : Node)
        (n : Node) (pos1 : Nat) (env1 : Env),
      array_init_rval fuel toks pos env id_node = some (n, pos1, env1) → pos ≤ pos1) ∧
    (∀ (fuel : Nat) (toks : List Token) (pos : Nat) (env : Env) (n : Node)
        (pos1 : Nat) (env1 : Env),
      primary fuel toks pos env = some (n, pos1, env1) → pos ≤ pos1) ∧
    (∀ (fuel : Nat) (toks : List Token) (pos : Nat) (env : Env) (n : Node)
        (pos1 : Nat) (env1 : Env),
      postfix_expr fuel toks pos env = some (n, pos1, env1) → pos ≤ pos1) ∧
    (∀ (fuel : Nat) (toks : List Token) (pos : Nat) (env : Env) (n : Node)
        (pos1 : Nat) (env1 : Env),
      unary fuel toks pos env = some (n, pos1, env1) → pos ≤ pos1) ∧
    (∀ (fuel : Nat) (toks : List Token) (pos : Nat) (env : Env) (n : Node)
        (pos1 : Nat) (env1 : Env),
      mul fuel toks pos env = some (n, pos1, env1) → pos ≤ pos1) ∧
    (∀ (fuel : Nat) (toks : List Token) (pos : Nat) (env : Env) (n : Node)
        (pos1 : Nat) (env1 : Env),
      add fuel toks pos env = some (n, pos1, env1) → pos ≤ pos1) ∧
    (∀ (fuel : Nat) (toks : List Token) (pos : Nat) (env : Env) (n : Node)
        (pos1 : Nat) (env1 : Env),
      shift fuel toks pos env = some (n, pos1, env1) → pos ≤ pos1) ∧
    (∀ (fuel : Nat) (toks : List Token) (pos : Nat) (env : Env) (n : Node)
        (pos1 : Nat) (env1 : Env),
      relational fuel toks pos env = some (n, pos1, env1) → pos ≤ pos1) ∧
    (∀ (fuel : Nat) (toks : List Token) (pos : Nat) (env : Env) (n : Node)
        (pos1 : Nat) (env1 : Env),
      equality fuel toks pos env = some (n, pos1, env1) → pos ≤ pos1) ∧
    (∀ (fuel : Nat) (toks : List Token) (pos : Nat) (env : Env) (n : Node)
        (pos1 : Nat) (env1 : Env),
      bit_and fuel toks pos env = some (n, pos1, env1) → pos ≤ pos1) ∧
    (∀ (fuel : Nat) (toks : List Token) (pos : Nat) (env : Env) (n : Node)
        (pos1 : Nat) (env1 : Env),
      bit_xor fuel toks pos env = some (n, pos1, env1) → pos ≤ pos1) ∧
    (∀ (fuel : Nat) (toks : List Token) (pos : Nat) (env : Env) (n : Node)
        (pos1 : Nat) (env1 : Env),
      bit_or fuel toks pos env = some (n, pos1, env1) → pos ≤ pos1) ∧
    (∀ (fuel : Nat) (toks : List Token) (pos : Nat) (env : Env) (n : Node)
        (pos1 : Nat) (env1 : Env),
      logand fuel toks pos env = some (n, pos1, env1) → pos ≤ pos1) ∧
    (∀ (fuel : Nat) (toks : List Token) (pos : Nat) (env : Env) (n : Node)
        (pos1 : Nat) (env1 : Env),
      logor fuel toks pos env = some (n, pos1, env1) → pos ≤ pos1) ∧
    (∀ (fuel : Nat) (toks : List Token) (pos : Nat) (env : Env) (n : Node)
        (pos1 : Nat) (env1 : Env),
      conditional fuel toks pos env = some (n, pos1, env1) → pos ≤ pos1) ∧
    (∀ (fuel : Nat) (toks : List Token) (pos : Nat) (env : Env) (n : Node)
        (pos1 : Nat) (env1 : Env),
      assign fuel toks pos env = some (n, pos1, env1) → pos ≤ pos1) ∧
    (∀ (fuel : Nat) (toks : List Token) (pos : Nat) (env : Env) (n : Node)
        (pos1 : Nat) (env1 : Env),
      expr fuel toks pos env = some (n, pos1, env1) → pos ≤ pos1) ∧
    (∀ (fuel : Nat) (toks : List Token) (pos : Nat) (env : Env) (n : Node)
        (pos1 : Nat) (env1 : Env),
      expr_stmt fuel toks pos env = some (n, pos1, env1) → pos ≤ pos1) ∧
    (∀ (fuel : Nat) (toks : List Token) (pos : Nat) (env : Env) (n : Node)
        (pos1 : Nat) (env1 : Env),
      stmt fuel toks pos env = some (n, pos1, env1) → pos ≤ pos1) ∧
    (∀ (fuel : Nat) (toks : List Token) (pos : Nat) (env : Env) (n : Node)
        (pos1 : Nat) (env1 : Env),
      compound_stmt fuel toks pos env = some (n, pos1, env1) → pos ≤ pos1) ∧
    (∀ (fuel : Nat) (toks : List Token) (pos : Nat) (env : Env) (n : Node)
        (pos1 : Nat) (env1 : Env),
      toplevel fuel toks pos env = some (n, pos1, env1) → pos ≤ pos1) ∧
    (∀ (fuel : Nat) (toks : List Token) (pos : Nat) (env : Env) (n : Node)
        (pos1 : Nat) (env1 : Env),
      decl fuel toks pos env = some (n, pos1, env1) → pos ≤ pos1) ∧
    (∀ (fuel : Nat) (toks : List Token) (pos : Nat) (env : Env) (n : Node)
        (pos1 : Nat) (env1 : Env),
      param fuel toks pos env = some (n, pos1, env1) → pos ≤ pos1) := by
  refine ⟨?_, ?_, ?_, ?_, ?_, ?_, ?_, ?_, ?_, ?_, ?_, ?_, ?_, ?_, ?_, ?_, ?_, ?_, ?_, ?_, ?_, ?_, ?_, ?_, ?_, ?_, ?_, ?_, ?_⟩
  · intro ty toks pos pos1 h
    have := expect_pos h; omega
  · intro ty toks pos b pos1 h
    exact (consume_pos h).1
  · intro fuel fn toks pos env r pos1 env1 h
    exact (run_mono fuel fn toks pos env r pos1 env1 h).1
  · intro fuel t toks pos env res pos1 env1 h
    exact (run_mono fuel _ toks pos env _ pos1 env1 (read_type_eq_iff.mp h)).1
  · intro fuel toks pos env ty pos1 env1 h
    exact (run_mono fuel _ toks pos env _ pos1 env1 (ctype_eq_iff.mp h)).1
  · intro fuel ty toks pos env ty1 pos1 env1 h
    exact (run_mono fuel _ toks pos env _ pos1 env1 (read_array_eq_iff.mp h)).1
  · intro fuel toks pos env id_node n pos1 env1 h
    exact (run_mono fuel _ toks pos env _ pos1 env1 (array_init_rval_eq_iff.mp h)).1
  · intro fuel toks pos env n pos1 env1 h
    exact (run_mono fuel _ toks pos env _ pos1 env1 (primary_eq_iff.mp h)).1
  · intro fuel toks pos env n pos1 env1 h
    exact (run_mono fuel _ toks pos env _ pos1 env1 (postfix_expr_eq_iff.mp h)).1
  · intro fuel toks pos env n pos1 env1 h
    exact (run_mono fuel _ toks pos env _ pos1 env1 (unary_eq_iff.mp h)).1
  · intro fuel toks pos env n pos1 env1 h
    exact (run_mono fuel _ toks pos env _ pos1 env1 (mul_eq_iff.mp h)).1
  · intro fuel toks pos env n pos1 env1 h
    exact (run_mono fuel _ toks pos env _ pos1 env1 (add_eq_iff.mp h)).1
  · intro fuel toks pos env n pos1 env1 h
    exact (run_mono fuel _ toks pos env _ pos1 env1 (shift_eq_iff.mp h)).1
  · intro fuel toks pos env n pos1 env1 h
    exact (run_mono fuel _ toks pos env _ pos1 env1 (relational_eq_iff.mp h)).1
  · intro fuel toks pos env n pos1 env1 h
    exact (run_mono fuel _ toks pos env _ pos1 env1 (equality_eq_iff.mp h)).1
  · intro fuel toks pos env n pos1 env1 h
    exact (run_mono fuel _ toks pos env _ pos1 env1 (bit_and_eq_iff.mp h)).1
  · intro fuel toks pos env n pos1 env1 h
    exact (run_mono fuel _ toks pos env _ pos1 env1 (bit_xor_eq_iff.mp h)).1
  · intro fuel toks pos env n pos1 env1 h
    exact (run_mono fuel _ toks pos env _ pos1 env1 (bit_or_eq_iff.mp h)).1
  · intro fuel toks pos env n pos1 env1 h
    exact (run_mono fuel _ toks pos env _ pos1 env1 (logand_eq_iff.mp h)).1
  · intro fuel toks pos env n pos1 env1 h
    exact (run_mono fuel _ toks pos env _ pos1 env1 (logor_eq_iff.mp h)).1
  · intro fuel toks pos env n pos1 env1 h
    exact (run_mono fuel _ toks pos env _ pos1 env1 (conditional_eq_iff.mp h)).1
  · intro fuel toks pos env n pos1 env1 h
    exact (run_mono fuel _ toks pos env _ pos1 env1 (assign_eq_iff.mp h)).1
  · intro fuel toks pos env n pos1 env1 h
    exact (run_mono fuel _ toks pos env _ pos1 env1 (expr_eq_iff.mp h)).1
  · intro fuel toks pos env n pos1 env1 h
    exact (run_mono fuel _ toks pos env _ pos1 env1 (expr_stmt_eq_iff.mp h)).1
  · intro fuel toks pos env n pos1 env1 h
    exact (run_mono fuel _ toks pos env _ pos1 env1 (stmt_eq_iff.mp h)).1
  · intro fuel toks pos env n pos1 env1 h
    exact (run_mono fuel _ toks pos env _ pos1 env1 (compound_stmt_eq_iff.mp h)).1
  · intro fuel toks pos env n pos1 env1 h
    exact (run_mono fuel _ toks pos env _ pos1 env1 (toplevel_eq_iff.mp h)).1
  · intro fuel toks pos env n pos1 env1 h
    exact (run_mono fuel _ toks pos env _ pos1 env1 (decl_eq_iff.mp h)).1
  · intro fuel toks pos env n pos1 env1 h
    exact (run_mono fuel _ toks pos env _ pos1 env1 (param_eq_iff.mp h)).1

/-- C10 witness: the consume component instantiated at a concrete
one-token list, where the cursor moves from 0 to 1. -/
theorem C10_witness : (0 : Nat) ≤ 1 :=
  C10_cursor_monotone.2.1 .Semicolon [Token.mk .Semicolon] 0 true 1 rfl
